import Mathlib

/-!
# Verification of the excel-exporter core (`exporter.go`)

Shallow embedding of the export orchestration engine: the pull-based row
source with sheet-overflow splitting (`exportHelper`), the two writer
strategies (`exportUsingMemory`, `exportUsingStreamWriter`), the driver
(`Export`) and the push-to-pull channel adapter (`UseRowChan`).

The workbook backend (excelize) is out of scope for the repository; it is
modelled as an observation trace of backend-primitive calls plus the small
amount of backend state the exporter reads back (the sheet list, for
`SheetCount`, and the sheet bound to the active stream writer).  Backend
calls may be made to fail through an `Oracle` indexed by the running count
of backend calls, which models the error returns of the excelize
primitives.  Coordinates are kept as `(column, row)` pairs: excelize's
`CoordinatesToCellName` formatting is explicitly out of scope per the spec.

Errors are Go `error` values: opaque leaves plus `fmt.Errorf(ctx + ": %w")`
wrapping.  Where the Go functions return only `error` (the workbook object
being mutated in place), the embedding returns `Except (Err × Exporter)
Exporter` so that the state at the moment of an abort stays observable.
-/

namespace ExcelExporter

/-- Go `error` values: opaque leaf errors plus `fmt.Errorf("<ctx>: %w", err)`. -/
inductive Err : Type where
  | tag : Nat → Err
  | wrap : String → Err → Err
deriving DecidableEq

/-- Scalar cell values.  The exporter never inspects a value; the exact
variant set is irrelevant to its logic. -/
inductive CellValue : Type where
  | vNull : CellValue
  | vBool : Bool → CellValue
  | vInt : Int → CellValue
  | vStr : String → CellValue
deriving DecidableEq

/-- Modelled from the spec: `RowOptions` (§3) is an opaque backend-specific
configuration bag that the exporter only forwards to the stream writer
(`row.RowOpts...` at `exporter.go:106`); its declaration is not part of
`src/`.  Opaque tokens suffice. -/
structure RowOpt where
  ident : Nat
deriving DecidableEq

/-- Modelled from the spec: `Cell` (§3) is declared outside `src/`; the
fields are exactly those the source reads (`cell.Value`, `cell.StyleID`,
`cell.Formula` at `exporter.go:137-147`), matching `excelize.Cell`. -/
structure Cell where
  Value : CellValue := CellValue.vNull
  StyleID : Int := 0
  Formula : String := ""
deriving DecidableEq

/-- Modelled from the spec: `MergeCell` (§3 `MergeRange`); fields as read at
`exporter.go:111` (`mergeCell.TopLeftCell`, `mergeCell.BottomRightCell`). -/
structure MergeCell where
  TopLeftCell : String
  BottomRightCell : String
deriving DecidableEq

/-- Modelled from the spec: `Row` (§3).  `Cells` is a Go slice, so it
distinguishes the absent (nil) slice — the end-of-data sentinel tested by
`row.Cells == nil` at `exporter.go:181` — from a present-but-empty slice;
hence `Option (List Cell)`. -/
structure Row where
  Cells : Option (List Cell) := none
  MergeCells : List MergeCell := []
  RowOpts : List RowOpt := []
deriving DecidableEq

/-- The Go zero value `Row{}`: nil `Cells`, i.e. the end-of-data sentinel. -/
def Row.zeroValue : Row := {}

/-- `SheetMaxRows` (`exporter.go:11`): `1 << 20` rows per physical sheet. -/
def SheetMaxRows : Nat := 1 <<< 20

/-- `SheetData` (`exporter.go:21-25`).  `RowFunc` is the pull contract
(`RowDataFunc`): the Go signature `func(int) (Row, error)` becomes
`Nat → Except Err Row`.  The init hook `InitFunc` receives the exporter;
of its state the hook can observe, only the current sheet name matters to
the claims, so the hook is modelled as `String → Except Err Unit` applied
to `CurrentSheet`, with its invocation recorded in the trace. -/
structure SheetData where
  Name : String
  RowFunc : Nat → Except Err Row
  InitFunc : Option (String → Except Err Unit) := none

/-- One backend-primitive call (plus the two instrumentation events
`initCalled` and `pulled`, which record the user init-hook invocations of
`exporter.go:91/129` and the pulls `sheet.RowFunc(rowIndex)` of
`exporter.go:176`; those two are not backend calls). -/
inductive Event : Type where
  | newSheet (name : String)
  | deleteSheet (name : String)
  | setCellValue (sheet : String) (col row : Nat) (v : CellValue)
  | setCellStyle (sheet : String) (col row : Nat) (styleID : Int)
  | setCellFormula (sheet : String) (col row : Nat) (formula : String)
  | mergeCell (sheet : String) (topLeft bottomRight : String)
  | openStream (sheet : String)
  | streamSetRow (sheet : String) (col row : Nat) (cells : List Cell) (opts : List RowOpt)
  | streamMerge (sheet : String) (topLeft bottomRight : String)
  | flush
  | saveAs (name : String)
  | initCalled (sheet : String)
  | pulled (rowIndex : Nat)
deriving DecidableEq

/-- Whether an event is an actual backend-primitive call (counted against
the failure oracle), as opposed to pure instrumentation. -/
def Event.isBackend : Event → Bool
  | .initCalled _ => false
  | .pulled _ => false
  | _ => true

/-- The `Exporter` struct (`exporter.go:28-34`).  `Sheets`, `Trace` and
`Calls` together model the `excelize.File`: the workbook's sheet-name list
(for `SheetCount` and `NewSheet`/`DeleteSheet`), the chronological log of
backend calls, and the running backend-call count (the failure-oracle
index).  `StreamWriter` is the sheet the active stream handle is bound to
(`nil` pointer ↦ `none`). -/
structure Exporter where
  Sheets : List String
  Trace : List Event
  Calls : Nat
  FileName : String
  CurrentSheet : String
  UseStreamWriter : Bool
  StreamWriter : Option String
deriving DecidableEq

/-- `New` (`exporter.go:37-43`): `excelize.NewFile()` creates a workbook
holding the single default placeholder sheet `"Sheet1"`. -/
def New (fileName : String) (useStreamWriter : Bool) : Exporter :=
  { Sheets := ["Sheet1"], Trace := [], Calls := 0, FileName := fileName
    CurrentSheet := "", UseStreamWriter := useStreamWriter, StreamWriter := none }

/-- Backend failure oracle: `bo n` is the error (if any) returned by the
`n`-th backend-primitive call of the run. -/
def Oracle : Type := Nat → Option Err

/-- The always-succeeding backend. -/
def noFail : Oracle := fun _ => none

/-- A backend that fails exactly its `k`-th call (0-based) with `e` and
succeeds everywhere else: the instrument for injecting an error into one
chosen stage of a run. -/
def failAt (k : Nat) (e : Err) : Oracle := fun n => if n = k then some e else none

/-- Record a successful backend call: append its event, bump the call count. -/
def appendEv (st : Exporter) (ev : Event) : Exporter :=
  { st with Trace := st.Trace ++ [ev], Calls := st.Calls + 1 }

/-- Record an instrumentation event (init-hook invocation / pull): appended
to the trace but not a backend call. -/
def notify (st : Exporter) (ev : Event) : Exporter :=
  { st with Trace := st.Trace ++ [ev] }

/-- Successful-`NewSheet` effect: excelize adds the sheet only if no sheet
of that name exists (otherwise it returns the existing sheet's index). -/
def appendSheet (st : Exporter) (name : String) : Exporter :=
  { appendEv st (.newSheet name) with
    Sheets := if st.Sheets.contains name then st.Sheets else st.Sheets ++ [name] }

/-- `e.File.NewSheet(name)` (`exporter.go:51/191`). -/
def opNewSheet (bo : Oracle) (name : String) (st : Exporter) :
    Except (Err × Exporter) Exporter :=
  match bo st.Calls with
  | some e => .error (e, st)
  | none => .ok (appendSheet st name)

/-- `e.File.DeleteSheet(name)` (`exporter.go:57`). -/
def opDeleteSheet (bo : Oracle) (name : String) (st : Exporter) :
    Except (Err × Exporter) Exporter :=
  match bo st.Calls with
  | some e => .error (e, st)
  | none => .ok { appendEv st (.deleteSheet name) with Sheets := st.Sheets.erase name }

/-- `e.File.SetCellValue(sheet, cellName, v)` (`exporter.go:137`). -/
def opSetCellValue (bo : Oracle) (sheet : String) (col row : Nat) (v : CellValue)
    (st : Exporter) : Except (Err × Exporter) Exporter :=
  match bo st.Calls with
  | some e => .error (e, st)
  | none => .ok (appendEv st (.setCellValue sheet col row v))

/-- `e.File.SetCellStyle(sheet, cellName, cellName, styleID)` (`exporter.go:142`). -/
def opSetCellStyle (bo : Oracle) (sheet : String) (col row : Nat) (styleID : Int)
    (st : Exporter) : Except (Err × Exporter) Exporter :=
  match bo st.Calls with
  | some e => .error (e, st)
  | none => .ok (appendEv st (.setCellStyle sheet col row styleID))

/-- `e.File.SetCellFormula(sheet, cellName, formula)` (`exporter.go:148`). -/
def opSetCellFormula (bo : Oracle) (sheet : String) (col row : Nat) (formula : String)
    (st : Exporter) : Except (Err × Exporter) Exporter :=
  match bo st.Calls with
  | some e => .error (e, st)
  | none => .ok (appendEv st (.setCellFormula sheet col row formula))

/-- `e.File.MergeCell(sheet, tl, br)` (`exporter.go:155`). -/
def opMergeCell (bo : Oracle) (sheet : String) (tl br : String) (st : Exporter) :
    Except (Err × Exporter) Exporter :=
  match bo st.Calls with
  | some e => .error (e, st)
  | none => .ok (appendEv st (.mergeCell sheet tl br))

/-- `e.File.NewStreamWriter(sheetName)` (`exporter.go:86`): on success the
stream handle is (re)bound to `sheetName`. -/
def opNewStreamWriter (bo : Oracle) (name : String) (st : Exporter) :
    Except (Err × Exporter) Exporter :=
  match bo st.Calls with
  | some e => .error (e, st)
  | none => .ok { appendEv st (.openStream name) with StreamWriter := some name }

/-- `e.StreamWriter.SetRow(cell, rowCells, rowOpts...)` (`exporter.go:106`);
the write lands on the sheet the stream handle is bound to. -/
def opStreamSetRow (bo : Oracle) (col row : Nat) (cells : List Cell)
    (opts : List RowOpt) (st : Exporter) : Except (Err × Exporter) Exporter :=
  match bo st.Calls with
  | some e => .error (e, st)
  | none => .ok (appendEv st (.streamSetRow (st.StreamWriter.getD "") col row cells opts))

/-- `e.StreamWriter.MergeCell(tl, br)` (`exporter.go:111`). -/
def opStreamMerge (bo : Oracle) (tl br : String) (st : Exporter) :
    Except (Err × Exporter) Exporter :=
  match bo st.Calls with
  | some e => .error (e, st)
  | none => .ok (appendEv st (.streamMerge (st.StreamWriter.getD "") tl br))

/-- `e.StreamWriter.Flush()` (`exporter.go:81/123`). -/
def opFlush (bo : Oracle) (st : Exporter) : Except (Err × Exporter) Exporter :=
  match bo st.Calls with
  | some e => .error (e, st)
  | none => .ok (appendEv st .flush)

/-- `e.File.SaveAs(name)` (`exporter.go:73`). -/
def opSaveAs (bo : Oracle) (name : String) (st : Exporter) :
    Except (Err × Exporter) Exporter :=
  match bo st.Calls with
  | some e => .error (e, st)
  | none => .ok (appendEv st (.saveAs name))

/-! ## The writer strategies (`exporter.go:76-164`) -/

/-- The `initFunc` closure of `exportUsingStreamWriter` (`exporter.go:77-97`):
flush any previously active stream (merge/style instructions are lost
otherwise), open a stream writer on `e.CurrentSheet`, then run the user
init hook if present. -/
def streamInitFunc (bo : Oracle) (sheet : SheetData) (st : Exporter) :
    Except (Err × Exporter) Exporter := do
  let st1 ← match st.StreamWriter with
    | some _ => opFlush bo st
    | none => Except.ok st
  let st2 ← opNewStreamWriter bo st1.CurrentSheet st1
  match sheet.InitFunc with
  | some f =>
    match f st2.CurrentSheet with
    | .error e => .error (e, st2)
    | .ok _ => .ok (notify st2 (.initCalled st2.CurrentSheet))
  | none => .ok st2

/-- The merge loop of the stream `writeRowFunc` (`exporter.go:110-114`). -/
def streamMerges (bo : Oracle) : List MergeCell → Exporter → Except (Err × Exporter) Exporter
  | [], st => .ok st
  | m :: rest, st => do
    let st ← opStreamMerge bo m.TopLeftCell m.BottomRightCell st
    streamMerges bo rest st

/-- The `writeRowFunc` closure of `exportUsingStreamWriter`
(`exporter.go:99-117`): one batched `SetRow` at column 1 of `rowID`
(a nil `Cells` slice ranges as empty), then the row's merges. -/
def streamWriteRow (bo : Oracle) (st : Exporter) (rowID : Nat) (row : Row) :
    Except (Err × Exporter) Exporter := do
  let st ← opStreamSetRow bo 1 rowID (row.Cells.getD []) row.RowOpts st
  streamMerges bo row.MergeCells st

/-- The `initFunc` closure of `exportUsingMemory` (`exporter.go:127-132`):
just the user init hook, if present. -/
def memInitFunc (sheet : SheetData) (st : Exporter) :
    Except (Err × Exporter) Exporter :=
  match sheet.InitFunc with
  | some f =>
    match f st.CurrentSheet with
    | .error e => .error (e, st)
    | .ok _ => .ok (notify st (.initCalled st.CurrentSheet))
  | none => .ok st

/-- The cell loop of the memory `writeRowFunc` (`exporter.go:135-152`):
for the cell at 0-based position `j`, value at `(j+1, rowID)`, style only
when `StyleID > 0`, formula only when `Formula != ""`. -/
def memWriteCells (bo : Oracle) (sheetName : String) (rowID : Nat) :
    Nat → List Cell → Exporter → Except (Err × Exporter) Exporter
  | _, [], st => .ok st
  | j, c :: rest, st => do
    let st ← opSetCellValue bo sheetName (j + 1) rowID c.Value st
    let st ← if 0 < c.StyleID then opSetCellStyle bo sheetName (j + 1) rowID c.StyleID st
             else Except.ok st
    let st ← if c.Formula ≠ "" then opSetCellFormula bo sheetName (j + 1) rowID c.Formula st
             else Except.ok st
    memWriteCells bo sheetName rowID (j + 1) rest st

/-- The merge loop of the memory `writeRowFunc` (`exporter.go:154-158`). -/
def memMerges (bo : Oracle) (sheetName : String) :
    List MergeCell → Exporter → Except (Err × Exporter) Exporter
  | [], st => .ok st
  | m :: rest, st => do
    let st ← opMergeCell bo sheetName m.TopLeftCell m.BottomRightCell st
    memMerges bo sheetName rest st

/-- The `writeRowFunc` closure of `exportUsingMemory` (`exporter.go:134-161`),
called with `sheetName = e.CurrentSheet`: all cells, then all merges. -/
def memWriteRow (bo : Oracle) (st : Exporter) (rowID : Nat) (row : Row) :
    Except (Err × Exporter) Exporter := do
  let st1 ← memWriteCells bo st.CurrentSheet rowID 0 (row.Cells.getD []) st
  memMerges bo st.CurrentSheet row.MergeCells st1

/-! ## The orchestrator (`exporter.go:46-74, 166-210`) -/

/-- The `NewSheet` calls whose errors are wrapped with
`"failed to create a new sheet: %w"` (`exporter.go:52/192`). -/
def wrapNewSheet (bo : Oracle) (name : String) (st : Exporter) :
    Except (Err × Exporter) Exporter :=
  match opNewSheet bo name st with
  | .error (e, st') => .error (Err.wrap "failed to create a new sheet" e, st')
  | .ok st' => .ok st'

/-- The split block of the pull loop (`exporter.go:185-199`): when
`rowID > SheetMaxRows`, bump the suffix, reset `rowID` to 1, create the
physical sheet `"<name>_<suffix>"`, make it current and re-run the
strategy's `initFunc`. -/
def splitIfNeeded (bo : Oracle) (sheet : SheetData)
    (initF : Exporter → Except (Err × Exporter) Exporter)
    (rowID suffix : Nat) (st : Exporter) :
    Except (Err × Exporter) (Nat × Nat × Exporter) :=
  if SheetMaxRows < rowID then do
    let nm := sheet.Name ++ "_" ++ toString (suffix + 1)
    let st ← wrapNewSheet bo nm st
    let st := { st with CurrentSheet := nm }
    let st ← initF st
    .ok (1, suffix + 1, st)
  else .ok (rowID, suffix, st)

/-- The pull loop of `exportHelper` (`exporter.go:175-207`): pull
`sheet.RowFunc(rowIndex)` (recorded as a `pulled` event), abort on a pull
error, break on the nil-`Cells` sentinel, split if over capacity, write the
row via the strategy, advance `rowID` and `rowIndex`.  The Go loop is
unbounded; `fuel` bounds the recursion, `none` meaning fuel ran out. -/
def exportLoop (sheet : SheetData)
    (initF : Exporter → Except (Err × Exporter) Exporter)
    (writeF : Exporter → Nat → Row → Except (Err × Exporter) Exporter)
    (bo : Oracle) :
    Nat → Nat → Nat → Nat → Exporter → Option (Except (Err × Exporter) Exporter)
  | 0, _, _, _, _ => none
  | fuel + 1, rowID, suffix, rowIndex, st =>
    let st := notify st (.pulled rowIndex)
    match sheet.RowFunc rowIndex with
    | .error e => some (.error (e, st))
    | .ok row =>
      if row.Cells.isNone then some (.ok st)
      else
        match splitIfNeeded bo sheet initF rowID suffix st with
        | .error es => some (.error es)
        | .ok (rowID', suffix', st') =>
          match writeF st' rowID' row with
          | .error es => some (.error es)
          | .ok st'' => exportLoop sheet initF writeF bo fuel (rowID' + 1) suffix' (rowIndex + 1) st''

/-- `exportHelper` (`exporter.go:166-210`): set the current sheet to
`sheet.Name`, run the strategy's `initFunc`, then the pull loop starting
from `rowID = 1`, `sheetSuffix = 0`, `rowIndex = 0`. -/
def exportHelper (bo : Oracle) (fuel : Nat) (sheet : SheetData)
    (initF : Exporter → Except (Err × Exporter) Exporter)
    (writeF : Exporter → Nat → Row → Except (Err × Exporter) Exporter)
    (st : Exporter) : Option (Except (Err × Exporter) Exporter) :=
  let st := { st with CurrentSheet := sheet.Name }
  match initF st with
  | .error es => some (.error es)
  | .ok st => exportLoop sheet initF writeF bo fuel 1 0 0 st

/-- `exportUsingStreamWriter` (`exporter.go:76-124`): the helper with the
streaming closures, then a final `Flush`. -/
def exportUsingStreamWriter (bo : Oracle) (fuel : Nat) (sheet : SheetData)
    (st : Exporter) : Option (Except (Err × Exporter) Exporter) :=
  match exportHelper bo fuel sheet (streamInitFunc bo sheet) (streamWriteRow bo) st with
  | some (.ok st) => some (opFlush bo st)
  | r => r

/-- `exportUsingMemory` (`exporter.go:126-164`). -/
def exportUsingMemory (bo : Oracle) (fuel : Nat) (sheet : SheetData)
    (st : Exporter) : Option (Except (Err × Exporter) Exporter) :=
  exportHelper bo fuel sheet (memInitFunc sheet) (memWriteRow bo) st

/-- The per-spec loop of `Export` (`exporter.go:50-71`) followed by
`SaveAs` (`exporter.go:73`): create the spec's sheet (wrapped error), on
the first spec delete the default `"Sheet1"` if the workbook then holds
more than one sheet (wrapped error), run the selected strategy. -/
def ExportLoop (bo : Oracle) (fuel : Nat) :
    Nat → List SheetData → Exporter → Option (Except (Err × Exporter) Exporter)
  | _, [], st => some (opSaveAs bo st.FileName st)
  | i, sheet :: rest, st =>
    match wrapNewSheet bo sheet.Name st with
    | .error es => some (.error es)
    | .ok st =>
      match (if i = 0 ∧ 1 < st.Sheets.length then
               match opDeleteSheet bo "Sheet1" st with
               | .error (e, st') => .error (Err.wrap "failed to delete default sheet" e, st')
               | .ok st' => Except.ok st'
             else Except.ok st) with
      | .error es => some (.error es)
      | .ok st =>
        match (if st.UseStreamWriter then exportUsingStreamWriter bo fuel sheet st
               else exportUsingMemory bo fuel sheet st) with
        | some (.ok st) => ExportLoop bo fuel (i + 1) rest st
        | r => r

/-- `Export` (`exporter.go:46-74`).  The deferred `e.File.Close()` only
releases temp files and is not observable through the modelled primitives. -/
def Export (bo : Oracle) (fuel : Nat) (st : Exporter)
    (sheets : List SheetData) : Option (Except (Err × Exporter) Exporter) :=
  ExportLoop bo fuel 0 sheets st

/-! ## The channel adapter `UseRowChan` (`exporter.go:213-237`)

The producer goroutine runs `sendDataFunc(dataCh)`, which sends rows into
the rendezvous channel one by one and then returns; the deferred
`close(dataCh)` runs after the return value has been assigned to `sendErr`.
A producer is therefore observationally a list of rows sent in order plus
the final recorded error.  The consumer checks `sendErr` unsynchronized
after every receive (`exporter.go:228`).  A pull that observed closure
(`ok == false`) happens-after the `sendErr` assignment — the close at
`exporter.go:222` is deferred until after it — and reads the recorded value
race-free.  A pull that received a non-final row also reads race-free, and
reads `nil`: the producer has not returned, being blocked in its next send.
But on the pull that receives the producer's *last* row, the producer's
return and `sendErr` assignment run concurrently with the consumer's check:
that read is a data race, and its outcome depends on the schedule.  The
model makes the schedule explicit: a per-pull `race` bit, `true` for the
interleaving in which the producer's write lands before the consumer's
unsynchronized read. -/

/-- What the producer passed to `UseRowChan` does: the rows it sends, in
order, and the error it returns (recorded in `sendErr` before close). -/
structure SendData where
  rows : List Row
  sendErr : Option Err
deriving DecidableEq

/-- Consumer-visible adapter state: the `sync.Once` flag and the rows not
yet handed over (the channel is closed once they run out). -/
structure ChanState where
  started : Bool
  pending : List Row
deriving DecidableEq

/-- Adapter state before the first pull. -/
def initialChanState : ChanState := ⟨false, []⟩

/-- `once.Do` (`exporter.go:219-225`): the first pull starts the producer;
repeated pulls do not restart it. -/
def chanOnce (p : SendData) (st : ChanState) : ChanState :=
  if st.started then st else { started := true, pending := p.rows }

/-- One pull of the closure returned by `UseRowChan` (`exporter.go:218-236`):
receive (`row, ok := <-dataCh`), check `sendErr`, check `ok`.  The `sendErr`
check after the receive is unsynchronized (`exporter.go:228`); it reads the
recorded value on a closed-channel receive (race-free through the close),
`nil` on a non-final row (the producer is blocked in its next send), and on
the receive of the *last* row — the one emptying the channel — it races
with the producer's `sendErr` assignment (`exporter.go:223`): `race` picks
which side of that data race the read observes. -/
def chanPull (p : SendData) (race : Bool) (st : ChanState) : Except Err Row × ChanState :=
  let st := chanOnce p st
  let recv : Row × Bool × ChanState :=
    match st.pending with
    | row :: rest => (row, true, { st with pending := rest })
    | [] => (Row.zeroValue, false, st)
  match recv with
  | (row, ok, st) =>
    let sendErr : Option Err :=
      if ok then (if race && st.pending.isEmpty then p.sendErr else none) else p.sendErr
    match sendErr with
    | some e => (.error e, st)
    | none => if !ok then (.ok Row.zeroValue, st) else (.ok row, st)

/-- Adapter state after `n` pulls under the race schedule `sched`. -/
def chanStateAfter (p : SendData) (sched : Nat → Bool) : Nat → ChanState
  | 0 => initialChanState
  | n + 1 => (chanPull p (sched n) (chanStateAfter p sched n)).2

/-- Result of the `n`-th pull (0-based) on the Row Source built by
`UseRowChan` from producer `p`, under the race schedule `sched`. -/
def chanPullN (p : SendData) (sched : Nat → Bool) (n : Nat) : Except Err Row :=
  (chanPull p (sched n) (chanStateAfter p sched n)).1

/-! ## Mirror functions and trace projections

Pure, oracle-free mirrors of the successful executions, used to state and
prove the claims, plus projections extracting one aspect of a trace. -/

/-- A Row Source backed by a finite list: pull `i` yields `rows[i]`, and the
zero-value sentinel once the list is exhausted.  Never errors. -/
def listSrc (rows : List Row) : Nat → Except Err Row :=
  fun i => .ok ((rows[i]?).getD Row.zeroValue)

/-- A Row Source yielding `rows` then the error `e`: pull `i < rows.length`
yields `rows[i]`, any later pull fails with `e`. -/
def errSrc (rows : List Row) (e : Err) : Nat → Except Err Row :=
  fun i => match rows[i]? with
    | some r => .ok r
    | none => .error e

/-- An optional init hook that always succeeds when invoked. -/
def hookOk (hook? : Option (String → Except Err Unit)) : Prop :=
  ∀ h s, hook? = some h → h s = .ok ()

/-- Mirror of a successful `streamInitFunc` run: flush if a stream is
active, rebind the stream to the current sheet, record the hook call. -/
def pureStreamInit (hasHook : Bool) (st : Exporter) : Exporter :=
  let st1 := if st.StreamWriter.isSome then appendEv st .flush else st
  let st2 := { appendEv st1 (.openStream st1.CurrentSheet) with StreamWriter := some st1.CurrentSheet }
  if hasHook then notify st2 (.initCalled st2.CurrentSheet) else st2

/-- Mirror of a successful `streamMerges` run on the stream bound to `sh`. -/
def pureStreamMerges (sh : String) : List MergeCell → Exporter → Exporter
  | [], st => st
  | m :: rest, st => pureStreamMerges sh rest (appendEv st (.streamMerge sh m.TopLeftCell m.BottomRightCell))

/-- Mirror of a successful `streamWriteRow` run. -/
def pureStreamRow (st : Exporter) (rowID : Nat) (row : Row) : Exporter :=
  pureStreamMerges (st.StreamWriter.getD "") row.MergeCells
    (appendEv st (.streamSetRow (st.StreamWriter.getD "") 1 rowID (row.Cells.getD []) row.RowOpts))

/-- The loop-local state of `exportHelper`'s pull loop. -/
structure LoopSt where
  rowID : Nat
  suffix : Nat
  rowIndex : Nat
  ex : Exporter
deriving DecidableEq

/-- Mirror of one successful streaming iteration of the pull loop on a
non-sentinel `row`: record the pull, split if over capacity, write. -/
def pureStep (name : String) (hasHook : Bool) (ls : LoopSt) (row : Row) : LoopSt :=
  let st := notify ls.ex (.pulled ls.rowIndex)
  if SheetMaxRows < ls.rowID then
    let nm := name ++ "_" ++ toString (ls.suffix + 1)
    let st := { appendSheet st nm with CurrentSheet := nm }
    let st := pureStreamInit hasHook st
    ⟨2, ls.suffix + 1, ls.rowIndex + 1, pureStreamRow st 1 row⟩
  else
    ⟨ls.rowID + 1, ls.suffix, ls.rowIndex + 1, pureStreamRow st ls.rowID row⟩

/-- Mirror of the successful streaming pull loop over a list of
non-sentinel rows (the final sentinel pull is not included). -/
def pureRun (name : String) (hasHook : Bool) : List Row → LoopSt → LoopSt
  | [], ls => ls
  | row :: rest, ls => pureRun name hasHook rest (pureStep name hasHook ls row)

/-- The events a streaming row write appends when the stream is bound to
`sh`: one `streamSetRow` then the row's merges. -/
def rowEvents (sh : String) (rowID : Nat) (row : Row) : List Event :=
  .streamSetRow sh 1 rowID (row.Cells.getD []) row.RowOpts
    :: row.MergeCells.map (fun m => .streamMerge sh m.TopLeftCell m.BottomRightCell)

/-- The events of a split-free streaming run of `rs` on the stream bound to
`sh`, writing from physical row `rowID` and pulling from index `k`. -/
def flatRowEvents (sh : String) (rowID k : Nat) : List Row → List Event
  | [] => []
  | row :: rest => (Event.pulled k :: rowEvents sh rowID row) ++ flatRowEvents sh (rowID + 1) (k + 1) rest

/-- Number of backend calls a successful event sequence accounts for. -/
def backendCount (evs : List Event) : Nat := (evs.filter Event.isBackend).length

/-- The physical row numbers of the stream row writes landing on `s`. -/
def setRowIDsOn (s : String) : List Event → List Nat
  | [] => []
  | .streamSetRow sh _ r _ _ :: rest => (if sh = s then [r] else []) ++ setRowIDsOn s rest
  | _ :: rest => setRowIDsOn s rest

/-- The sheet names on which the init hook was invoked, in order. -/
def initsOf : List Event → List String
  | [] => []
  | .initCalled s :: rest => s :: initsOf rest
  | _ :: rest => initsOf rest

/-- The row indices pulled from the Row Source, in order. -/
def pullsOf : List Event → List Nat
  | [] => []
  | .pulled i :: rest => i :: pullsOf rest
  | _ :: rest => pullsOf rest

/-- The sheet names passed to `DeleteSheet`, in order. -/
def delsOf : List Event → List String
  | [] => []
  | .deleteSheet s :: rest => s :: delsOf rest
  | _ :: rest => delsOf rest

/-- Events a split-free streaming row loop can emit. -/
def isRowEv : Event → Bool
  | .pulled _ => true
  | .streamSetRow _ _ _ _ _ => true
  | .streamMerge _ _ _ => true
  | _ => false

/-- The events a memory-strategy cell loop appends for the cells `cs`
starting at 0-based column position `j`: per cell, always the value at
`(j+1, rowID)`, the style exactly when `StyleID > 0`, the formula exactly
when `Formula ≠ ""`. -/
def memCellEvents (sh : String) (rowID : Nat) : Nat → List Cell → List Event
  | _, [] => []
  | j, c :: rest =>
    (Event.setCellValue sh (j + 1) rowID c.Value
      :: ((if 0 < c.StyleID then [Event.setCellStyle sh (j + 1) rowID c.StyleID] else [])
          ++ (if c.Formula ≠ "" then [Event.setCellFormula sh (j + 1) rowID c.Formula] else [])))
      ++ memCellEvents sh rowID (j + 1) rest

/-- The merge events a memory-strategy row write appends. -/
def memMergeEvents (sh : String) (ms : List MergeCell) : List Event :=
  ms.map fun m => .mergeCell sh m.TopLeftCell m.BottomRightCell

/-- The cell values written by the memory strategy at `(col, row)` of `sh`. -/
def valueWrites (sh : String) (col row : Nat) (evs : List Event) : List CellValue :=
  evs.filterMap fun ev => match ev with
    | .setCellValue s c r v => if s = sh ∧ c = col ∧ r = row then some v else none
    | _ => none

/-- The styles applied by the memory strategy at `(col, row)` of `sh`. -/
def styleWrites (sh : String) (col row : Nat) (evs : List Event) : List Int :=
  evs.filterMap fun ev => match ev with
    | .setCellStyle s c r sid => if s = sh ∧ c = col ∧ r = row then some sid else none
    | _ => none

/-- The formulas applied by the memory strategy at `(col, row)` of `sh`. -/
def formulaWrites (sh : String) (col row : Nat) (evs : List Event) : List String :=
  evs.filterMap fun ev => match ev with
    | .setCellFormula s c r f => if s = sh ∧ c = col ∧ r = row then some f else none
    | _ => none

/-- The events a successful `streamInitFunc` run appends: the conditional
flush, the stream rebinding, the conditional hook invocation. -/
def initEvents (hadStream hk : Bool) (c : String) : List Event :=
  (if hadStream then [Event.flush] else [])
    ++ [Event.openStream c]
    ++ (if hk then [Event.initCalled c] else [])

/-- `b` extends `a`'s trace without any `DeleteSheet` call. -/
def TExt (a b : Exporter) : Prop :=
  ∃ d, b.Trace = a.Trace ++ d ∧ delsOf d = []

/-- Flag transition: `openStream` marks a stream with pending (unflushed)
content, `flush` commits it, every other event leaves the flag alone. -/
def activeStep (active : Bool) : Event → Bool
  | .openStream _ => true
  | .flush => false
  | _ => active

/-- The pending-stream flag after scanning a trace. -/
def activeAux (active : Bool) : List Event → Bool
  | [] => active
  | e :: rest => activeAux (activeStep active e) rest

/-- Per-event discipline check at flag `active`: the stream handle is
(re)bound only when no previously opened stream is pending a flush, stream
writes land only on a pending (open, unflushed) stream, and the workbook
is saved only with no pending stream. -/
def evOK (active : Bool) : Event → Bool
  | .openStream _ => !active
  | .streamSetRow _ _ _ _ _ => active
  | .streamMerge _ _ _ => active
  | .saveAs _ => !active
  | _ => true

/-- The flush discipline along a whole trace from flag `active`. -/
def flushOKAux (active : Bool) : List Event → Bool
  | [] => true
  | e :: rest => evOK active e && flushOKAux (activeStep active e) rest

/-- The flush discipline of a trace (no stream open initially). -/
def flushOK (tr : List Event) : Bool := flushOKAux false tr

/-- Invariant at sheet-spec boundaries of a streaming export: the trace so
far respects the flush discipline and no opened stream is pending a flush. -/
def BInv (st : Exporter) : Prop :=
  flushOKAux false st.Trace = true ∧ activeAux false st.Trace = false

/-- Invariant inside the streaming pull loop: discipline respected, the
stream handle bound, its stream pending (opened and not yet flushed). -/
def LInv (st : Exporter) : Prop :=
  flushOKAux false st.Trace = true ∧ activeAux false st.Trace = true
    ∧ st.StreamWriter.isSome = true

/-- The sheet names passed to `NewSheet`, in order. -/
def newsOf : List Event → List String
  | [] => []
  | .newSheet s :: rest => s :: newsOf rest
  | _ :: rest => newsOf rest

/-- The file names passed to `SaveAs`, in order. -/
def savesOf : List Event → List String
  | [] => []
  | .saveAs s :: rest => s :: savesOf rest
  | _ :: rest => savesOf rest

/-! ## Basic reduction lemmas -/

@[simp] theorem Exporter_mk_Sheets (a : List String) (t : List Event) (c : Nat) (f cs : String) (u : Bool) (sw : Option String) : (⟨a, t, c, f, cs, u, sw⟩ : Exporter).Sheets = a := rfl

@[simp] theorem Exporter_mk_Trace (a : List String) (t : List Event) (c : Nat) (f cs : String) (u : Bool) (sw : Option String) : (⟨a, t, c, f, cs, u, sw⟩ : Exporter).Trace = t := rfl

@[simp] theorem Exporter_mk_Calls (a : List String) (t : List Event) (c : Nat) (f cs : String) (u : Bool) (sw : Option String) : (⟨a, t, c, f, cs, u, sw⟩ : Exporter).Calls = c := rfl

@[simp] theorem Exporter_mk_FileName (a : List String) (t : List Event) (c : Nat) (f cs : String) (u : Bool) (sw : Option String) : (⟨a, t, c, f, cs, u, sw⟩ : Exporter).FileName = f := rfl

@[simp] theorem Exporter_mk_CurrentSheet (a : List String) (t : List Event) (c : Nat) (f cs : String) (u : Bool) (sw : Option String) : (⟨a, t, c, f, cs, u, sw⟩ : Exporter).CurrentSheet = cs := rfl

@[simp] theorem Exporter_mk_UseStreamWriter (a : List String) (t : List Event) (c : Nat) (f cs : String) (u : Bool) (sw : Option String) : (⟨a, t, c, f, cs, u, sw⟩ : Exporter).UseStreamWriter = u := rfl

@[simp] theorem Exporter_mk_StreamWriter (a : List String) (t : List Event) (c : Nat) (f cs : String) (u : Bool) (sw : Option String) : (⟨a, t, c, f, cs, u, sw⟩ : Exporter).StreamWriter = sw := rfl

@[simp] theorem LoopSt_mk_rowID (a b c : Nat) (e : Exporter) : (⟨a, b, c, e⟩ : LoopSt).rowID = a := rfl

@[simp] theorem LoopSt_mk_suffix (a b c : Nat) (e : Exporter) : (⟨a, b, c, e⟩ : LoopSt).suffix = b := rfl

@[simp] theorem LoopSt_mk_rowIndex (a b c : Nat) (e : Exporter) : (⟨a, b, c, e⟩ : LoopSt).rowIndex = c := rfl

@[simp] theorem LoopSt_mk_ex (a b c : Nat) (e : Exporter) : (⟨a, b, c, e⟩ : LoopSt).ex = e := rfl

@[simp] theorem New_Sheets (fn : String) (us : Bool) : (New fn us).Sheets = ["Sheet1"] := rfl

@[simp] theorem New_Trace (fn : String) (us : Bool) : (New fn us).Trace = [] := rfl

@[simp] theorem New_Calls (fn : String) (us : Bool) : (New fn us).Calls = 0 := rfl

@[simp] theorem New_FileName (fn : String) (us : Bool) : (New fn us).FileName = fn := rfl

@[simp] theorem New_CurrentSheet (fn : String) (us : Bool) : (New fn us).CurrentSheet = "" := rfl

@[simp] theorem New_UseStreamWriter (fn : String) (us : Bool) : (New fn us).UseStreamWriter = us := rfl

@[simp] theorem New_StreamWriter (fn : String) (us : Bool) : (New fn us).StreamWriter = none := rfl

@[simp] theorem appendEv_Sheets (st : Exporter) (ev : Event) : (appendEv st ev).Sheets = st.Sheets := rfl

@[simp] theorem appendEv_Trace (st : Exporter) (ev : Event) : (appendEv st ev).Trace = st.Trace ++ [ev] := rfl

@[simp] theorem appendEv_Calls (st : Exporter) (ev : Event) : (appendEv st ev).Calls = st.Calls + 1 := rfl

@[simp] theorem appendEv_FileName (st : Exporter) (ev : Event) : (appendEv st ev).FileName = st.FileName := rfl

@[simp] theorem appendEv_CurrentSheet (st : Exporter) (ev : Event) : (appendEv st ev).CurrentSheet = st.CurrentSheet := rfl

@[simp] theorem appendEv_UseStreamWriter (st : Exporter) (ev : Event) : (appendEv st ev).UseStreamWriter = st.UseStreamWriter := rfl

@[simp] theorem appendEv_StreamWriter (st : Exporter) (ev : Event) : (appendEv st ev).StreamWriter = st.StreamWriter := rfl

@[simp] theorem notify_Sheets (st : Exporter) (ev : Event) : (notify st ev).Sheets = st.Sheets := rfl

@[simp] theorem notify_Trace (st : Exporter) (ev : Event) : (notify st ev).Trace = st.Trace ++ [ev] := rfl

@[simp] theorem notify_Calls (st : Exporter) (ev : Event) : (notify st ev).Calls = st.Calls := rfl

@[simp] theorem notify_FileName (st : Exporter) (ev : Event) : (notify st ev).FileName = st.FileName := rfl

@[simp] theorem notify_CurrentSheet (st : Exporter) (ev : Event) : (notify st ev).CurrentSheet = st.CurrentSheet := rfl

@[simp] theorem notify_UseStreamWriter (st : Exporter) (ev : Event) : (notify st ev).UseStreamWriter = st.UseStreamWriter := rfl

@[simp] theorem notify_StreamWriter (st : Exporter) (ev : Event) : (notify st ev).StreamWriter = st.StreamWriter := rfl

@[simp] theorem appendSheet_Trace (st : Exporter) (name : String) : (appendSheet st name).Trace = st.Trace ++ [.newSheet name] := rfl

@[simp] theorem appendSheet_Calls (st : Exporter) (name : String) : (appendSheet st name).Calls = st.Calls + 1 := rfl

@[simp] theorem appendSheet_FileName (st : Exporter) (name : String) : (appendSheet st name).FileName = st.FileName := rfl

@[simp] theorem appendSheet_CurrentSheet (st : Exporter) (name : String) : (appendSheet st name).CurrentSheet = st.CurrentSheet := rfl

@[simp] theorem appendSheet_UseStreamWriter (st : Exporter) (name : String) : (appendSheet st name).UseStreamWriter = st.UseStreamWriter := rfl

@[simp] theorem appendSheet_StreamWriter (st : Exporter) (name : String) : (appendSheet st name).StreamWriter = st.StreamWriter := rfl

theorem appendSheet_Sheets (st : Exporter) (name : String) :
    (appendSheet st name).Sheets = if st.Sheets.contains name then st.Sheets else st.Sheets ++ [name] := rfl

@[simp] theorem opNewSheet_noFail (name : String) (st : Exporter) :
    opNewSheet noFail name st = .ok (appendSheet st name) := rfl

@[simp] theorem opDeleteSheet_noFail (name : String) (st : Exporter) :
    opDeleteSheet noFail name st = .ok { appendEv st (.deleteSheet name) with Sheets := st.Sheets.erase name } := rfl

@[simp] theorem opSetCellValue_noFail (sheet : String) (col row : Nat) (v : CellValue) (st : Exporter) :
    opSetCellValue noFail sheet col row v st = .ok (appendEv st (.setCellValue sheet col row v)) := rfl

@[simp] theorem opSetCellStyle_noFail (sheet : String) (col row : Nat) (sid : Int) (st : Exporter) :
    opSetCellStyle noFail sheet col row sid st = .ok (appendEv st (.setCellStyle sheet col row sid)) := rfl

@[simp] theorem opSetCellFormula_noFail (sheet : String) (col row : Nat) (f : String) (st : Exporter) :
    opSetCellFormula noFail sheet col row f st = .ok (appendEv st (.setCellFormula sheet col row f)) := rfl

@[simp] theorem opMergeCell_noFail (sheet tl br : String) (st : Exporter) :
    opMergeCell noFail sheet tl br st = .ok (appendEv st (.mergeCell sheet tl br)) := rfl

@[simp] theorem opNewStreamWriter_noFail (name : String) (st : Exporter) :
    opNewStreamWriter noFail name st = .ok { appendEv st (.openStream name) with StreamWriter := some name } := rfl

@[simp] theorem opStreamSetRow_noFail (col row : Nat) (cells : List Cell) (opts : List RowOpt) (st : Exporter) :
    opStreamSetRow noFail col row cells opts st
      = .ok (appendEv st (.streamSetRow (st.StreamWriter.getD "") col row cells opts)) := rfl

@[simp] theorem opStreamMerge_noFail (tl br : String) (st : Exporter) :
    opStreamMerge noFail tl br st = .ok (appendEv st (.streamMerge (st.StreamWriter.getD "") tl br)) := rfl

@[simp] theorem opFlush_noFail (st : Exporter) : opFlush noFail st = .ok (appendEv st .flush) := rfl

@[simp] theorem opSaveAs_noFail (name : String) (st : Exporter) :
    opSaveAs noFail name st = .ok (appendEv st (.saveAs name)) := rfl

@[simp] theorem wrapNewSheet_noFail (name : String) (st : Exporter) :
    wrapNewSheet noFail name st = .ok (appendSheet st name) := rfl

/-! ## The channel adapter: pull sequence (claims about `UseRowChan`) -/

/-- The adapter state visible to the `n`-th pull after the `once.Do`
initialization: started, with the first `n` rows already handed over. -/
theorem chanOnce_chanStateAfter (p : SendData) (sched : Nat → Bool) :
    ∀ n, chanOnce p (chanStateAfter p sched n) = ⟨true, p.rows.drop n⟩ := by
  intro n
  induction n with
  | zero => simp [chanStateAfter, initialChanState, chanOnce]
  | succ n ih =>
    simp only [chanStateAfter, chanPull, ih]
    cases h : p.rows.drop n with
    | nil =>
      have h2 : p.rows.drop (n + 1) = [] :=
        List.drop_eq_nil_iff.mpr (Nat.le_succ_of_le (List.drop_eq_nil_iff.mp h))
      cases p.sendErr <;> simp [chanOnce, h2]
    | cons r rest =>
      have h2 : p.rows.drop (n + 1) = rest := by
        rw [← List.tail_drop, h]
        rfl
      rcases hse : (if sched n && rest.isEmpty then p.sendErr else none) with _ | e2 <;>
        simp [chanOnce, h2, hse]

/-- C3 (corrected): a producer that sends `r0, r1, r2` and then returns the
error `e` is observed by successive pulls as exactly `r0`, then `r1`, then
`r2`, then the recorded error — in every schedule in which the
unsynchronized `sendErr` check of the pull receiving the *last* row does
not observe the producer's concurrent write (`sched 2 = false`).  The first
two pulls and the closure pull are schedule-independent: the producer
cannot have returned before its last send, and the close is sequenced after
the `sendErr` assignment, so the closure pull reads the error race-free.
Unconditionally the property fails — the check at `exporter.go:228` races
with the write at `exporter.go:223` at the last handoff, and the last row
can be dropped for the error (`C3_chan_rows_then_error_counterexample`). -/
theorem C3_chan_rows_then_error (r0 r1 r2 : Row) (e : Err) (sched : Nat → Bool)
    (h : sched 2 = false) :
    chanPullN ⟨[r0, r1, r2], some e⟩ sched 0 = .ok r0 ∧
    chanPullN ⟨[r0, r1, r2], some e⟩ sched 1 = .ok r1 ∧
    chanPullN ⟨[r0, r1, r2], some e⟩ sched 2 = .ok r2 ∧
    chanPullN ⟨[r0, r1, r2], some e⟩ sched 3 = .error e := by
  have h1 : chanStateAfter ⟨[r0, r1, r2], some e⟩ sched 1 = ⟨true, [r1, r2]⟩ := by
    show (chanPull _ (sched 0) (chanStateAfter _ sched 0)).2 = _
    simp [chanStateAfter, initialChanState, chanPull, chanOnce]
  have h2 : chanStateAfter ⟨[r0, r1, r2], some e⟩ sched 2 = ⟨true, [r2]⟩ := by
    show (chanPull _ (sched 1) (chanStateAfter _ sched 1)).2 = _
    rw [h1]
    simp [chanPull, chanOnce]
  have h3 : chanStateAfter ⟨[r0, r1, r2], some e⟩ sched 3 = ⟨true, []⟩ := by
    show (chanPull _ (sched 2) (chanStateAfter _ sched 2)).2 = _
    rw [h2]
    simp [chanPull, chanOnce, h]
  refine ⟨?_, ?_, ?_, ?_⟩
  · show (chanPull _ (sched 0) (chanStateAfter _ sched 0)).1 = _
    simp [chanStateAfter, initialChanState, chanPull, chanOnce]
  · show (chanPull _ (sched 1) (chanStateAfter _ sched 1)).1 = _
    rw [h1]
    simp [chanPull, chanOnce]
  · show (chanPull _ (sched 2) (chanStateAfter _ sched 2)).1 = _
    rw [h2]
    simp [chanPull, chanOnce, h]
  · show (chanPull _ (sched 3) (chanStateAfter _ sched 3)).1 = _
    rw [h3]
    simp [chanPull, chanOnce]

/-- Witness for the corrected C3 at concrete rows and the race-free
schedule. -/
theorem C3_chan_rows_then_error_witness :
    ((fun _ : Nat => false) 2 = false) ∧
    (chanPullN ⟨[{ Cells := some [] }, { Cells := some [] }, { Cells := some [] }],
        some (.tag 0)⟩ (fun _ => false) 0 = .ok { Cells := some [] } ∧
      chanPullN ⟨[{ Cells := some [] }, { Cells := some [] }, { Cells := some [] }],
        some (.tag 0)⟩ (fun _ => false) 1 = .ok { Cells := some [] } ∧
      chanPullN ⟨[{ Cells := some [] }, { Cells := some [] }, { Cells := some [] }],
        some (.tag 0)⟩ (fun _ => false) 2 = .ok { Cells := some [] } ∧
      chanPullN ⟨[{ Cells := some [] }, { Cells := some [] }, { Cells := some [] }],
        some (.tag 0)⟩ (fun _ => false) 3 = .error (.tag 0)) :=
  ⟨rfl, C3_chan_rows_then_error { Cells := some [] } { Cells := some [] } { Cells := some [] }
    (.tag 0) (fun _ => false) rfl⟩

/-- Counterexample to C3 as stated: under the schedule in which the
producer's `sendErr` assignment lands between the final handoff and the
consumer's unsynchronized check, the pull that should yield the last row
returns the recorded error instead — the last row is dropped and the error
arrives one pull early, so rows *can* be dropped and interleaved with the
error. -/
theorem C3_chan_rows_then_error_counterexample :
    chanPullN ⟨[{ Cells := some [] }, { Cells := some [] }, { Cells := some [] }],
        some (.tag 0)⟩ (fun _ => true) 2
      = .error (.tag 0)
    ∧ (Except.error (.tag 0) : Except Err Row) ≠ .ok { Cells := some [] } :=
  ⟨rfl, fun hcon => Except.noConfusion hcon⟩

/-- C5: once the channel is closed (every row handed over), each further
pull — under every race schedule — returns the recorded error if there is
one, and otherwise the end-of-data sentinel `Row{}` with no error. -/
theorem C5_chan_after_close (p : SendData) (sched : Nat → Bool) (n : Nat)
    (h : p.rows.length ≤ n) :
    (∀ e, p.sendErr = some e → chanPullN p sched n = .error e) ∧
    (p.sendErr = none → chanPullN p sched n = .ok Row.zeroValue) := by
  have hd : p.rows.drop n = [] := List.drop_eq_nil_iff.mpr h
  have hst : chanOnce p (chanStateAfter p sched n) = ⟨true, []⟩ := by
    rw [chanOnce_chanStateAfter, hd]
  constructor
  · intro e he
    simp [chanPullN, chanPull, hst, he]
  · intro he
    simp [chanPullN, chanPull, hst, he]

/-- Witness for C5 at a concrete producer. -/
theorem C5_chan_after_close_witness :
    (SendData.mk [] (some (.tag 0))).rows.length ≤ 0 ∧
      ((∀ e, (SendData.mk [] (some (.tag 0))).sendErr = some e →
          chanPullN ⟨[], some (.tag 0)⟩ (fun _ => false) 0 = .error e) ∧
        ((SendData.mk [] (some (.tag 0))).sendErr = none →
          chanPullN ⟨[], some (.tag 0)⟩ (fun _ => false) 0 = .ok Row.zeroValue)) :=
  ⟨by decide, C5_chan_after_close ⟨[], some (.tag 0)⟩ (fun _ => false) 0 (by decide)⟩

/-! ## The memory strategy: row-write characterization -/

@[simp] theorem exceptBind_ok {ε α β : Type} (a : α) (f : α → Except ε β) :
    (Except.ok a >>= f) = f a := rfl

@[simp] theorem exceptBind_error {ε α β : Type} (e : ε) (f : α → Except ε β) :
    ((Except.error e : Except ε α) >>= f) = Except.error e := rfl

/-- A successful memory-strategy cell loop appends exactly
`memCellEvents`, all of them backend calls. -/
theorem memWriteCells_noFail (sh : String) (rowID : Nat) :
    ∀ (cs : List Cell) (j : Nat) (st : Exporter),
    memWriteCells noFail sh rowID j cs st
      = .ok { st with Trace := st.Trace ++ memCellEvents sh rowID j cs,
                      Calls := st.Calls + (memCellEvents sh rowID j cs).length } := by
  intro cs
  induction cs with
  | nil => intro j st; simp [memWriteCells, memCellEvents]
  | cons c rest ih =>
    intro j st
    by_cases hs : 0 < c.StyleID <;> by_cases hf : c.Formula ≠ "" <;>
      simp [memWriteCells, memCellEvents, hs, hf, ih, appendEv, List.append_assoc] <;>
      omega

/-- A successful memory-strategy merge loop appends exactly `memMergeEvents`. -/
theorem memMerges_noFail (sh : String) :
    ∀ (ms : List MergeCell) (st : Exporter),
    memMerges noFail sh ms st
      = .ok { st with Trace := st.Trace ++ memMergeEvents sh ms,
                      Calls := st.Calls + ms.length } := by
  intro ms
  induction ms with
  | nil => intro st; simp [memMerges, memMergeEvents]
  | cons m rest ih =>
    intro st
    simp [memMerges, memMergeEvents, ih, appendEv, List.append_assoc]
    omega

/-- A successful memory-strategy row write: all cell events, then all merge
events, on the current sheet. -/
theorem memWriteRow_noFail (st : Exporter) (rowID : Nat) (row : Row) :
    memWriteRow noFail st rowID row
      = .ok { st with
          Trace := st.Trace ++ (memCellEvents st.CurrentSheet rowID 0 (row.Cells.getD [])
                    ++ memMergeEvents st.CurrentSheet row.MergeCells),
          Calls := st.Calls + ((memCellEvents st.CurrentSheet rowID 0 (row.Cells.getD [])).length
                    + row.MergeCells.length) } := by
  simp [memWriteRow, memWriteCells_noFail, memMerges_noFail, List.append_assoc]
  omega

@[simp] theorem valueWrites_nil (sh : String) (col row : Nat) : valueWrites sh col row [] = [] := rfl

@[simp] theorem styleWrites_nil (sh : String) (col row : Nat) : styleWrites sh col row [] = [] := rfl

@[simp] theorem formulaWrites_nil (sh : String) (col row : Nat) : formulaWrites sh col row [] = [] := rfl

@[simp] theorem valueWrites_append (sh : String) (col row : Nat) (a b : List Event) :
    valueWrites sh col row (a ++ b) = valueWrites sh col row a ++ valueWrites sh col row b := by
  simp [valueWrites]

@[simp] theorem styleWrites_append (sh : String) (col row : Nat) (a b : List Event) :
    styleWrites sh col row (a ++ b) = styleWrites sh col row a ++ styleWrites sh col row b := by
  simp [styleWrites]

@[simp] theorem formulaWrites_append (sh : String) (col row : Nat) (a b : List Event) :
    formulaWrites sh col row (a ++ b) = formulaWrites sh col row a ++ formulaWrites sh col row b := by
  simp [formulaWrites]

@[simp] theorem valueWrites_value_cons (sh : String) (col row : Nat) (s : String) (c r : Nat)
    (v : CellValue) (evs : List Event) :
    valueWrites sh col row (.setCellValue s c r v :: evs)
      = (if s = sh ∧ c = col ∧ r = row then [v] else []) ++ valueWrites sh col row evs := by
  by_cases h : s = sh ∧ c = col ∧ r = row <;> simp [valueWrites, List.filterMap_cons, h]

@[simp] theorem valueWrites_style_cons (sh : String) (col row : Nat) (s : String) (c r : Nat)
    (sid : Int) (evs : List Event) :
    valueWrites sh col row (.setCellStyle s c r sid :: evs) = valueWrites sh col row evs := by
  simp [valueWrites, List.filterMap_cons]

@[simp] theorem valueWrites_formula_cons (sh : String) (col row : Nat) (s : String) (c r : Nat)
    (f : String) (evs : List Event) :
    valueWrites sh col row (.setCellFormula s c r f :: evs) = valueWrites sh col row evs := by
  simp [valueWrites, List.filterMap_cons]

@[simp] theorem styleWrites_style_cons (sh : String) (col row : Nat) (s : String) (c r : Nat)
    (sid : Int) (evs : List Event) :
    styleWrites sh col row (.setCellStyle s c r sid :: evs)
      = (if s = sh ∧ c = col ∧ r = row then [sid] else []) ++ styleWrites sh col row evs := by
  by_cases h : s = sh ∧ c = col ∧ r = row <;> simp [styleWrites, List.filterMap_cons, h]

@[simp] theorem styleWrites_value_cons (sh : String) (col row : Nat) (s : String) (c r : Nat)
    (v : CellValue) (evs : List Event) :
    styleWrites sh col row (.setCellValue s c r v :: evs) = styleWrites sh col row evs := by
  simp [styleWrites, List.filterMap_cons]

@[simp] theorem styleWrites_formula_cons (sh : String) (col row : Nat) (s : String) (c r : Nat)
    (f : String) (evs : List Event) :
    styleWrites sh col row (.setCellFormula s c r f :: evs) = styleWrites sh col row evs := by
  simp [styleWrites, List.filterMap_cons]

@[simp] theorem formulaWrites_formula_cons (sh : String) (col row : Nat) (s : String) (c r : Nat)
    (f : String) (evs : List Event) :
    formulaWrites sh col row (.setCellFormula s c r f :: evs)
      = (if s = sh ∧ c = col ∧ r = row then [f] else []) ++ formulaWrites sh col row evs := by
  by_cases h : s = sh ∧ c = col ∧ r = row <;> simp [formulaWrites, List.filterMap_cons, h]

@[simp] theorem formulaWrites_value_cons (sh : String) (col row : Nat) (s : String) (c r : Nat)
    (v : CellValue) (evs : List Event) :
    formulaWrites sh col row (.setCellValue s c r v :: evs) = formulaWrites sh col row evs := by
  simp [formulaWrites, List.filterMap_cons]

@[simp] theorem formulaWrites_style_cons (sh : String) (col row : Nat) (s : String) (c r : Nat)
    (sid : Int) (evs : List Event) :
    formulaWrites sh col row (.setCellStyle s c r sid :: evs) = formulaWrites sh col row evs := by
  simp [formulaWrites, List.filterMap_cons]

/-- Every column touched by `memCellEvents _ _ j _` is at least `j + 1`:
writes at or below column `j` never occur. -/
theorem memCellEvents_low_col (sh : String) (rowID : Nat) :
    ∀ (cs : List Cell) (j col row : Nat), col ≤ j →
    valueWrites sh col row (memCellEvents sh rowID j cs) = []
      ∧ styleWrites sh col row (memCellEvents sh rowID j cs) = []
      ∧ formulaWrites sh col row (memCellEvents sh rowID j cs) = [] := by
  intro cs
  induction cs with
  | nil => intro j col row _; simp [memCellEvents]
  | cons c rest ih =>
    intro j col row hcol
    have hne : ¬ (j + 1 = col) := by omega
    have htl := ih (j + 1) col row (by omega)
    by_cases hs : 0 < c.StyleID <;> by_cases hf : c.Formula ≠ "" <;>
      simp [memCellEvents, hne, hs, hf, htl.1, htl.2.1, htl.2.2]

/-- The writes `memCellEvents` performs at column `j + i + 1` are exactly
those of the cell at position `i`: the value always, the style exactly when
`StyleID > 0`, the formula exactly when `Formula ≠ ""`. -/
theorem memCellEvents_writes (sh : String) (rowID : Nat) :
    ∀ (cs : List Cell) (j i : Nat),
    valueWrites sh (j + i + 1) rowID (memCellEvents sh rowID j cs)
        = (match cs[i]? with | some c => [c.Value] | none => [])
      ∧ styleWrites sh (j + i + 1) rowID (memCellEvents sh rowID j cs)
        = (match cs[i]? with
           | some c => if 0 < c.StyleID then [c.StyleID] else []
           | none => [])
      ∧ formulaWrites sh (j + i + 1) rowID (memCellEvents sh rowID j cs)
        = (match cs[i]? with
           | some c => if c.Formula ≠ "" then [c.Formula] else []
           | none => []) := by
  intro cs
  induction cs with
  | nil => intro j i; simp [memCellEvents]
  | cons c rest ih =>
    intro j i
    cases i with
    | zero =>
      have htl := memCellEvents_low_col sh rowID rest (j + 1) (j + 1) rowID (by omega)
      by_cases hs : 0 < c.StyleID <;> by_cases hf : c.Formula ≠ "" <;>
        simp [memCellEvents, hs, hf, htl.1, htl.2.1, htl.2.2]
    | succ i' =>
      have hne : ¬ (j + 1 = j + (i' + 1) + 1) := by omega
      have htl := ih (j + 1) i'
      have harith : j + 1 + i' + 1 = j + (i' + 1) + 1 := by omega
      rw [harith] at htl
      by_cases hs : 0 < c.StyleID <;> by_cases hf : c.Formula ≠ "" <;>
        simp [memCellEvents, hs, hf, hne, htl.1, htl.2.1, htl.2.2]

/-- C7: in the Buffered (memory) strategy, a row write appends exactly the
cell events followed by the merge events (merges applied after all cells);
and at coordinate `(j+1, rowNumber)` of the current sheet, the cell at
0-based position `j` has its value written always, its style applied
exactly when `StyleID > 0`, and its formula applied exactly when its
formula string is non-empty — the formula write being independent of the
(unconditional) value write. -/
theorem C7_memory_cell_writes (st : Exporter) (rowID : Nat) (cells : List Cell)
    (merges : List MergeCell) (opts : List RowOpt) :
    memWriteRow noFail st rowID ⟨some cells, merges, opts⟩
      = .ok { st with
          Trace := st.Trace ++ (memCellEvents st.CurrentSheet rowID 0 cells
                    ++ memMergeEvents st.CurrentSheet merges),
          Calls := st.Calls + ((memCellEvents st.CurrentSheet rowID 0 cells).length
                    + merges.length) }
    ∧ ∀ j, (hj : j < cells.length) →
        valueWrites st.CurrentSheet (j + 1) rowID (memCellEvents st.CurrentSheet rowID 0 cells)
            = [cells[j].Value]
        ∧ styleWrites st.CurrentSheet (j + 1) rowID (memCellEvents st.CurrentSheet rowID 0 cells)
            = (if 0 < cells[j].StyleID then [cells[j].StyleID] else [])
        ∧ formulaWrites st.CurrentSheet (j + 1) rowID (memCellEvents st.CurrentSheet rowID 0 cells)
            = (if cells[j].Formula ≠ "" then [cells[j].Formula] else []) := by
  constructor
  · rw [memWriteRow_noFail]
    rfl
  · intro j hj
    have h := memCellEvents_writes st.CurrentSheet rowID cells 0 j
    have hg : cells[j]? = some cells[j] := List.getElem?_eq_getElem hj
    rw [hg] at h
    simpa using h

/-- Witness for C7 at a concrete row. -/
theorem C7_memory_cell_writes_witness :
    (0 : Nat) < ([⟨.vInt 7, 2, ""⟩] : List Cell).length ∧
      (memWriteRow noFail (New "f" false) 1 ⟨some [⟨.vInt 7, 2, ""⟩], [], []⟩
        = .ok { New "f" false with
            Trace := (New "f" false).Trace
              ++ (memCellEvents (New "f" false).CurrentSheet 1 0 [⟨.vInt 7, 2, ""⟩]
                  ++ memMergeEvents (New "f" false).CurrentSheet []),
            Calls := (New "f" false).Calls
              + ((memCellEvents (New "f" false).CurrentSheet 1 0 [⟨.vInt 7, 2, ""⟩]).length + ([] : List MergeCell).length) }
      ∧ ∀ j, (hj : j < ([⟨.vInt 7, 2, ""⟩] : List Cell).length) →
          valueWrites (New "f" false).CurrentSheet (j + 1) 1 (memCellEvents (New "f" false).CurrentSheet 1 0 [⟨.vInt 7, 2, ""⟩])
              = [([⟨.vInt 7, 2, ""⟩] : List Cell)[j].Value]
          ∧ styleWrites (New "f" false).CurrentSheet (j + 1) 1 (memCellEvents (New "f" false).CurrentSheet 1 0 [⟨.vInt 7, 2, ""⟩])
              = (if 0 < ([⟨.vInt 7, 2, ""⟩] : List Cell)[j].StyleID then [([⟨.vInt 7, 2, ""⟩] : List Cell)[j].StyleID] else [])
          ∧ formulaWrites (New "f" false).CurrentSheet (j + 1) 1 (memCellEvents (New "f" false).CurrentSheet 1 0 [⟨.vInt 7, 2, ""⟩])
              = (if ([⟨.vInt 7, 2, ""⟩] : List Cell)[j].Formula ≠ "" then [([⟨.vInt 7, 2, ""⟩] : List Cell)[j].Formula] else [])) :=
  ⟨by decide, C7_memory_cell_writes (New "f" false) 1 [⟨.vInt 7, 2, ""⟩] [] []⟩

/-! ## The streaming strategy: characterization of successful runs -/

/-- A successful streaming merge loop is its pure mirror. -/
theorem streamMerges_noFail :
    ∀ (ms : List MergeCell) (st : Exporter),
    streamMerges noFail ms st = .ok (pureStreamMerges (st.StreamWriter.getD "") ms st) := by
  intro ms
  induction ms with
  | nil => intro st; simp [streamMerges, pureStreamMerges]
  | cons m rest ih =>
    intro st
    simp [streamMerges, pureStreamMerges, ih]

/-- Explicit form of the pure merge mirror. -/
theorem pureStreamMerges_char (sh : String) :
    ∀ (ms : List MergeCell) (st : Exporter),
    pureStreamMerges sh ms st
      = { st with
          Trace := st.Trace ++ ms.map (fun m => Event.streamMerge sh m.TopLeftCell m.BottomRightCell),
          Calls := st.Calls + ms.length } := by
  intro ms
  induction ms with
  | nil => intro st; simp [pureStreamMerges]
  | cons m rest ih =>
    intro st
    simp [pureStreamMerges, ih, appendEv, List.append_assoc]
    omega

/-- A successful streaming row write is its pure mirror. -/
theorem streamWriteRow_noFail (st : Exporter) (rowID : Nat) (row : Row) :
    streamWriteRow noFail st rowID row = .ok (pureStreamRow st rowID row) := by
  simp [streamWriteRow, pureStreamRow, streamMerges_noFail]

/-- Explicit form of the pure row-write mirror. -/
theorem pureStreamRow_char (st : Exporter) (rowID : Nat) (row : Row) :
    pureStreamRow st rowID row
      = { st with
          Trace := st.Trace ++ rowEvents (st.StreamWriter.getD "") rowID row,
          Calls := st.Calls + (1 + row.MergeCells.length) } := by
  simp [pureStreamRow, pureStreamMerges_char, rowEvents, appendEv, List.append_assoc]
  omega

/-- `pureStreamRow` only touches `Trace` and `Calls`. -/
@[simp] theorem pureStreamRow_StreamWriter (st : Exporter) (rowID : Nat) (row : Row) :
    (pureStreamRow st rowID row).StreamWriter = st.StreamWriter := by
  rw [pureStreamRow_char]

@[simp] theorem pureStreamRow_Sheets (st : Exporter) (rowID : Nat) (row : Row) :
    (pureStreamRow st rowID row).Sheets = st.Sheets := by
  rw [pureStreamRow_char]

@[simp] theorem pureStreamRow_CurrentSheet (st : Exporter) (rowID : Nat) (row : Row) :
    (pureStreamRow st rowID row).CurrentSheet = st.CurrentSheet := by
  rw [pureStreamRow_char]

@[simp] theorem pureStreamRow_FileName (st : Exporter) (rowID : Nat) (row : Row) :
    (pureStreamRow st rowID row).FileName = st.FileName := by
  rw [pureStreamRow_char]

@[simp] theorem pureStreamRow_UseStreamWriter (st : Exporter) (rowID : Nat) (row : Row) :
    (pureStreamRow st rowID row).UseStreamWriter = st.UseStreamWriter := by
  rw [pureStreamRow_char]

@[simp] theorem pureStreamRow_Trace (st : Exporter) (rowID : Nat) (row : Row) :
    (pureStreamRow st rowID row).Trace = st.Trace ++ rowEvents (st.StreamWriter.getD "") rowID row := by
  rw [pureStreamRow_char]

/-- A `streamInitFunc` run whose hooks succeed is its pure mirror. -/
theorem streamInitFunc_noFail_hookOk (sheet : SheetData) (st : Exporter)
    (hok : hookOk sheet.InitFunc) :
    streamInitFunc noFail sheet st = .ok (pureStreamInit sheet.InitFunc.isSome st) := by
  cases hif : sheet.InitFunc with
  | none =>
    cases hsw : st.StreamWriter <;>
      simp [streamInitFunc, pureStreamInit, hif, hsw]
  | some f =>
    have hf : ∀ s, f s = .ok () := fun s => hok f s hif
    cases hsw : st.StreamWriter <;>
      simp [streamInitFunc, pureStreamInit, hif, hsw, hf]

/-- Any successful `streamInitFunc` run produces the pure mirror state
(the hook's success is forced by the success of the run). -/
theorem streamInitFunc_noFail_inv (sheet : SheetData) (st st' : Exporter)
    (h : streamInitFunc noFail sheet st = .ok st') :
    st' = pureStreamInit sheet.InitFunc.isSome st := by
  cases hif : sheet.InitFunc with
  | none =>
    cases hsw : st.StreamWriter <;>
      (simp [streamInitFunc, pureStreamInit, hif, hsw] at h ⊢; exact h.symm)
  | some f =>
    cases hsw : st.StreamWriter <;>
      simp [streamInitFunc, pureStreamInit, hif, hsw] at h ⊢ <;>
      rcases hr : f st.CurrentSheet with e | u <;> rw [hr] at h <;>
      simp at h <;> exact h.symm

@[simp] theorem setRowIDsOn_initEvents (s : String) (b hk : Bool) (c : String) :
    setRowIDsOn s (initEvents b hk c) = [] := by
  cases b <;> cases hk <;> simp [initEvents, setRowIDsOn]

@[simp] theorem pullsOf_initEvents (b hk : Bool) (c : String) :
    pullsOf (initEvents b hk c) = [] := by
  cases b <;> cases hk <;> simp [initEvents, pullsOf]

@[simp] theorem initsOf_initEvents (b hk : Bool) (c : String) :
    initsOf (initEvents b hk c) = if hk then [c] else [] := by
  cases b <;> cases hk <;> simp [initEvents, initsOf]

@[simp] theorem delsOf_initEvents (b hk : Bool) (c : String) :
    delsOf (initEvents b hk c) = [] := by
  cases b <;> cases hk <;> simp [initEvents, delsOf]

/-- Explicit form of the pure init mirror. -/
theorem pureStreamInit_char (hk : Bool) (st : Exporter) :
    pureStreamInit hk st
      = { st with
          Trace := st.Trace ++ initEvents st.StreamWriter.isSome hk st.CurrentSheet,
          Calls := st.Calls + (if st.StreamWriter.isSome then 2 else 1),
          StreamWriter := some st.CurrentSheet } := by
  cases hsw : st.StreamWriter <;> cases hk <;>
    simp [pureStreamInit, initEvents, hsw, appendEv, notify, List.append_assoc]

@[simp] theorem pureStreamInit_Sheets (hk : Bool) (st : Exporter) :
    (pureStreamInit hk st).Sheets = st.Sheets := by
  rw [pureStreamInit_char]

@[simp] theorem pureStreamInit_CurrentSheet (hk : Bool) (st : Exporter) :
    (pureStreamInit hk st).CurrentSheet = st.CurrentSheet := by
  rw [pureStreamInit_char]

@[simp] theorem pureStreamInit_FileName (hk : Bool) (st : Exporter) :
    (pureStreamInit hk st).FileName = st.FileName := by
  rw [pureStreamInit_char]

@[simp] theorem pureStreamInit_UseStreamWriter (hk : Bool) (st : Exporter) :
    (pureStreamInit hk st).UseStreamWriter = st.UseStreamWriter := by
  rw [pureStreamInit_char]

@[simp] theorem pureStreamInit_StreamWriter (hk : Bool) (st : Exporter) :
    (pureStreamInit hk st).StreamWriter = some st.CurrentSheet := by
  rw [pureStreamInit_char]

@[simp] theorem pureStreamInit_Trace (hk : Bool) (st : Exporter) :
    (pureStreamInit hk st).Trace
      = st.Trace ++ initEvents st.StreamWriter.isSome hk st.CurrentSheet := by
  rw [pureStreamInit_char]

/-- `pureRun` advances `rowIndex` by exactly one per row. -/
theorem pureRun_rowIndex (name : String) (hk : Bool) :
    ∀ (rs : List Row) (ls : LoopSt),
    (pureRun name hk rs ls).rowIndex = ls.rowIndex + rs.length := by
  intro rs
  induction rs with
  | nil => intro ls; simp [pureRun]
  | cons row rest ih =>
    intro ls
    by_cases hsp : SheetMaxRows < ls.rowID <;>
      simp [pureRun, pureStep, hsp, ih] <;> omega

/-- Advancing the streaming pull loop over a prefix of non-sentinel rows
whose pulls succeed: the loop state after consuming `rs` is the pure mirror
`pureRun`, with `rs.length` units of fuel spent. -/
theorem exportLoop_stream_advance (name : String) (hook? : Option (String → Except Err Unit))
    (f : Nat → Except Err Row) (hok : hookOk hook?) :
    ∀ (rs : List Row) (m k rowID suffix : Nat) (st : Exporter),
    (∀ j, (hj : j < rs.length) → f (k + j) = .ok rs[j]) →
    (∀ r ∈ rs, r.Cells.isSome = true) →
    exportLoop ⟨name, f, hook?⟩ (streamInitFunc noFail ⟨name, f, hook?⟩)
        (streamWriteRow noFail) noFail (rs.length + m) rowID suffix k st
      = exportLoop ⟨name, f, hook?⟩ (streamInitFunc noFail ⟨name, f, hook?⟩)
          (streamWriteRow noFail) noFail m
          (pureRun name hook?.isSome rs ⟨rowID, suffix, k, st⟩).rowID
          (pureRun name hook?.isSome rs ⟨rowID, suffix, k, st⟩).suffix
          (pureRun name hook?.isSome rs ⟨rowID, suffix, k, st⟩).rowIndex
          (pureRun name hook?.isSome rs ⟨rowID, suffix, k, st⟩).ex := by
  intro rs
  induction rs with
  | nil =>
    intro m k rowID suffix st _ _
    simp [pureRun]
  | cons row rest ih =>
    intro m k rowID suffix st hsrc hcells
    have hfuel : (row :: rest).length + m = (rest.length + m) + 1 := by
      simp [List.length_cons]
      omega
    rw [hfuel]
    obtain ⟨cs, hcs⟩ : ∃ cs, row.Cells = some cs :=
      Option.isSome_iff_exists.mp (hcells row (by simp))
    have hpull : f k = .ok row := by
      have := hsrc 0 (by simp)
      simpa using this
    have hsrc' : ∀ j, (hj : j < rest.length) → f (k + 1 + j) = .ok rest[j] := by
      intro j hj
      have := hsrc (j + 1) (by simp; omega)
      have harith : k + (j + 1) = k + 1 + j := by omega
      rw [harith] at this
      simpa using this
    have hcells' : ∀ r ∈ rest, r.Cells.isSome = true :=
      fun r hr => hcells r (by simp [hr])
    have hinit : ∀ st0 : Exporter,
        streamInitFunc noFail ⟨name, f, hook?⟩ st0 = .ok (pureStreamInit hook?.isSome st0) :=
      fun st0 => streamInitFunc_noFail_hookOk ⟨name, f, hook?⟩ st0 hok
    by_cases hsp : SheetMaxRows < rowID
    · simp only [exportLoop, hpull, hcs, Option.isNone_some, Bool.false_eq_true, if_false,
        splitIfNeeded, hsp, if_true, wrapNewSheet_noFail, exceptBind_ok,
        hinit, streamWriteRow_noFail]
      rw [ih m (k + 1) 2 (suffix + 1) _ hsrc' hcells']
      simp [pureRun, pureStep, hsp]
    · simp only [exportLoop, hpull, hcs, Option.isNone_some, Bool.false_eq_true, if_false,
        splitIfNeeded, hsp, if_false, exceptBind_ok, streamWriteRow_noFail]
      rw [ih m (k + 1) (rowID + 1) suffix _ hsrc' hcells']
      simp [pureRun, pureStep, hsp]

/-- Full characterization of a streaming `exportHelper` run over a
list-backed source of non-sentinel rows whose hooks succeed: it succeeds,
producing the pure mirror state plus the final sentinel pull. -/
theorem exportHelper_stream_listSrc (name : String)
    (hook? : Option (String → Except Err Unit)) (rows : List Row) (st : Exporter)
    (hok : hookOk hook?) (hcells : ∀ r ∈ rows, r.Cells.isSome = true) :
    exportHelper noFail (rows.length + 1) ⟨name, listSrc rows, hook?⟩
        (streamInitFunc noFail ⟨name, listSrc rows, hook?⟩) (streamWriteRow noFail) st
      = some (.ok (notify (pureRun name hook?.isSome rows
          ⟨1, 0, 0, pureStreamInit hook?.isSome { st with CurrentSheet := name }⟩).ex
          (.pulled rows.length))) := by
  have hinit : ∀ st0 : Exporter,
      streamInitFunc noFail ⟨name, listSrc rows, hook?⟩ st0
        = .ok (pureStreamInit hook?.isSome st0) :=
    fun st0 => streamInitFunc_noFail_hookOk ⟨name, listSrc rows, hook?⟩ st0 hok
  have hsrc : ∀ j, (hj : j < rows.length) → listSrc rows (0 + j) = .ok rows[j] := by
    intro j hj
    simp [listSrc, List.getElem?_eq_getElem hj]
  simp only [exportHelper, hinit]
  rw [exportLoop_stream_advance name hook? (listSrc rows) hok rows 1 0 1 0 _ hsrc hcells]
  rw [pureRun_rowIndex]
  have hend : listSrc rows rows.length = .ok Row.zeroValue := by
    simp [listSrc, List.getElem?_eq_none (Nat.le_refl rows.length)]
  simp only [exportLoop, Nat.zero_add, hend]
  simp [Row.zeroValue]

/-! ## Projections of the pure mirror run -/

@[simp] theorem setRowIDsOn_append (s : String) (a b : List Event) :
    setRowIDsOn s (a ++ b) = setRowIDsOn s a ++ setRowIDsOn s b := by
  induction a with
  | nil => simp [setRowIDsOn]
  | cons ev rest ih => cases ev <;> simp [setRowIDsOn, ih]

@[simp] theorem pullsOf_append (a b : List Event) :
    pullsOf (a ++ b) = pullsOf a ++ pullsOf b := by
  induction a with
  | nil => simp [pullsOf]
  | cons ev rest ih => cases ev <;> simp [pullsOf, ih]

@[simp] theorem initsOf_append (a b : List Event) :
    initsOf (a ++ b) = initsOf a ++ initsOf b := by
  induction a with
  | nil => simp [initsOf]
  | cons ev rest ih => cases ev <;> simp [initsOf, ih]

@[simp] theorem delsOf_append (a b : List Event) :
    delsOf (a ++ b) = delsOf a ++ delsOf b := by
  induction a with
  | nil => simp [delsOf]
  | cons ev rest ih => cases ev <;> simp [delsOf, ih]

@[simp] theorem setRowIDsOn_mergeMap (s sh : String) (ms : List MergeCell) :
    setRowIDsOn s (ms.map fun m => Event.streamMerge sh m.TopLeftCell m.BottomRightCell) = [] := by
  induction ms with
  | nil => simp [setRowIDsOn]
  | cons m rest ih => simp [setRowIDsOn, ih]

@[simp] theorem pullsOf_mergeMap (sh : String) (ms : List MergeCell) :
    pullsOf (ms.map fun m => Event.streamMerge sh m.TopLeftCell m.BottomRightCell) = [] := by
  induction ms with
  | nil => simp [pullsOf]
  | cons m rest ih => simp [pullsOf, ih]

@[simp] theorem initsOf_mergeMap (sh : String) (ms : List MergeCell) :
    initsOf (ms.map fun m => Event.streamMerge sh m.TopLeftCell m.BottomRightCell) = [] := by
  induction ms with
  | nil => simp [initsOf]
  | cons m rest ih => simp [initsOf, ih]

@[simp] theorem delsOf_mergeMap (sh : String) (ms : List MergeCell) :
    delsOf (ms.map fun m => Event.streamMerge sh m.TopLeftCell m.BottomRightCell) = [] := by
  induction ms with
  | nil => simp [delsOf]
  | cons m rest ih => simp [delsOf, ih]

@[simp] theorem setRowIDsOn_rowEvents (s sh : String) (rowID : Nat) (row : Row) :
    setRowIDsOn s (rowEvents sh rowID row) = if sh = s then [rowID] else [] := by
  by_cases h : sh = s <;> simp [rowEvents, setRowIDsOn, h]

@[simp] theorem pullsOf_rowEvents (sh : String) (rowID : Nat) (row : Row) :
    pullsOf (rowEvents sh rowID row) = [] := by
  simp [rowEvents, pullsOf]

@[simp] theorem initsOf_rowEvents (sh : String) (rowID : Nat) (row : Row) :
    initsOf (rowEvents sh rowID row) = [] := by
  simp [rowEvents, initsOf]

@[simp] theorem delsOf_rowEvents (sh : String) (rowID : Nat) (row : Row) :
    delsOf (rowEvents sh rowID row) = [] := by
  simp [rowEvents, delsOf]

theorem isRowEv_rowEvents (sh : String) (rowID : Nat) (row : Row) :
    ∀ ev ∈ rowEvents sh rowID row, isRowEv ev = true := by
  intro ev hev
  simp [rowEvents] at hev
  rcases hev with h | ⟨m, _, h⟩ <;> subst h <;> rfl

theorem setRowIDsOn_flat (s sh : String) :
    ∀ (rs : List Row) (rowID k : Nat),
    setRowIDsOn s (flatRowEvents sh rowID k rs)
      = if sh = s then List.range' rowID rs.length else [] := by
  intro rs
  induction rs with
  | nil => intro rowID k; simp [flatRowEvents, setRowIDsOn]
  | cons row rest ih =>
    intro rowID k
    by_cases h : sh = s
    · subst h
      simp [flatRowEvents, setRowIDsOn, ih, List.range'_succ rowID rest.length 1]
    · simp [flatRowEvents, setRowIDsOn, ih, h]

theorem pullsOf_flat (sh : String) :
    ∀ (rs : List Row) (rowID k : Nat),
    pullsOf (flatRowEvents sh rowID k rs) = List.range' k rs.length := by
  intro rs
  induction rs with
  | nil => intro rowID k; simp [flatRowEvents, pullsOf]
  | cons row rest ih =>
    intro rowID k
    simp [flatRowEvents, pullsOf, ih, List.range'_succ k rest.length 1]

theorem initsOf_flat (sh : String) :
    ∀ (rs : List Row) (rowID k : Nat), initsOf (flatRowEvents sh rowID k rs) = [] := by
  intro rs
  induction rs with
  | nil => intro rowID k; simp [flatRowEvents, initsOf]
  | cons row rest ih =>
    intro rowID k
    simp [flatRowEvents, initsOf, ih]

theorem delsOf_flat (sh : String) :
    ∀ (rs : List Row) (rowID k : Nat), delsOf (flatRowEvents sh rowID k rs) = [] := by
  intro rs
  induction rs with
  | nil => intro rowID k; simp [flatRowEvents, delsOf]
  | cons row rest ih =>
    intro rowID k
    simp [flatRowEvents, delsOf, ih]

theorem isRowEv_flat (sh : String) :
    ∀ (rs : List Row) (rowID k : Nat), ∀ ev ∈ flatRowEvents sh rowID k rs, isRowEv ev = true := by
  intro rs
  induction rs with
  | nil => intro rowID k ev hev; simp [flatRowEvents] at hev
  | cons row rest ih =>
    intro rowID k ev hev
    simp only [flatRowEvents, List.mem_append, List.mem_cons] at hev
    rcases hev with (h | h) | h
    · subst h; rfl
    · exact isRowEv_rowEvents sh rowID row ev h
    · exact ih (rowID + 1) (k + 1) ev h

/-- Concatenation of pure mirror runs. -/
theorem pureRun_append (name : String) (hk : Bool) :
    ∀ (a b : List Row) (ls : LoopSt),
    pureRun name hk (a ++ b) ls = pureRun name hk b (pureRun name hk a ls) := by
  intro a
  induction a with
  | nil => intro b ls; simp [pureRun]
  | cons row rest ih => intro b ls; simp [pureRun, ih]

/-- A pure mirror run that stays within the sheet capacity performs no
split: `rowID` advances one per row, the suffix, sheet list, current sheet
and stream binding are untouched, and the trace grows by exactly the pull
and stream-row events of `rs`. -/
theorem pureRun_noSplit (name : String) (hk : Bool) :
    ∀ (rs : List Row) (ls : LoopSt), ls.rowID + rs.length ≤ SheetMaxRows + 1 →
    (pureRun name hk rs ls).rowID = ls.rowID + rs.length
    ∧ (pureRun name hk rs ls).suffix = ls.suffix
    ∧ (pureRun name hk rs ls).ex.Sheets = ls.ex.Sheets
    ∧ (pureRun name hk rs ls).ex.CurrentSheet = ls.ex.CurrentSheet
    ∧ (pureRun name hk rs ls).ex.StreamWriter = ls.ex.StreamWriter
    ∧ (pureRun name hk rs ls).ex.FileName = ls.ex.FileName
    ∧ (pureRun name hk rs ls).ex.UseStreamWriter = ls.ex.UseStreamWriter
    ∧ (pureRun name hk rs ls).ex.Trace
        = ls.ex.Trace ++ flatRowEvents (ls.ex.StreamWriter.getD "") ls.rowID ls.rowIndex rs := by
  intro rs
  induction rs with
  | nil => intro ls _; simp [pureRun, flatRowEvents]
  | cons row rest ih =>
    intro ls hcap
    have hsp : ¬ SheetMaxRows < ls.rowID := by
      simp [List.length_cons] at hcap
      omega
    have hstep : pureStep name hk ls row
        = ⟨ls.rowID + 1, ls.suffix, ls.rowIndex + 1,
           pureStreamRow (notify ls.ex (.pulled ls.rowIndex)) ls.rowID row⟩ := by
      simp [pureStep, hsp]
    have hcap' : (pureStep name hk ls row).rowID + rest.length ≤ SheetMaxRows + 1 := by
      rw [hstep]
      simp [List.length_cons] at hcap ⊢
      omega
    have := ih (pureStep name hk ls row) hcap'
    rw [hstep] at this
    simp only [pureRun, hstep]
    simp only at this
    simp [this.1, this.2.1, this.2.2.1, this.2.2.2.1, this.2.2.2.2.1, this.2.2.2.2.2.1,
      this.2.2.2.2.2.2.1, this.2.2.2.2.2.2.2, flatRowEvents, List.append_assoc]
    omega

/-- The pure mirror run pulls exactly the consecutive row indices starting
at its `rowIndex`, one per row, splits notwithstanding. -/
theorem pureRun_pullsOf (name : String) (hk : Bool) :
    ∀ (rs : List Row) (ls : LoopSt),
    pullsOf (pureRun name hk rs ls).ex.Trace
      = pullsOf ls.ex.Trace ++ List.range' ls.rowIndex rs.length := by
  intro rs
  induction rs with
  | nil => intro ls; simp [pureRun]
  | cons row rest ih =>
    intro ls
    simp only [pureRun]
    rw [ih]
    by_cases hsp : SheetMaxRows < ls.rowID <;>
      simp [pureStep, hsp, pureStreamInit_char, pullsOf,
        List.range'_succ ls.rowIndex rest.length 1]

/-- C8: per Sheet Spec, the orchestrator pulls `rowIndex = 0, 1, 2, …`,
incrementing by exactly one per successful non-sentinel pull, independent
of the 1-based physical row number and of sheet splits (the rows list may
exceed the capacity), and after the sentinel pull at index `rows.length`
the source is never pulled again: the complete pull log of the run is
exactly `[0, …, rows.length]`. -/
theorem C8_pull_protocol (name : String) (hook? : Option (String → Except Err Unit))
    (rows : List Row) (st : Exporter)
    (hok : hookOk hook?) (hcells : ∀ r ∈ rows, r.Cells.isSome = true) :
    ∃ st', exportHelper noFail (rows.length + 1) ⟨name, listSrc rows, hook?⟩
        (streamInitFunc noFail ⟨name, listSrc rows, hook?⟩) (streamWriteRow noFail) st
      = some (.ok st')
    ∧ pullsOf st'.Trace = pullsOf st.Trace ++ List.range (rows.length + 1) := by
  refine ⟨_, exportHelper_stream_listSrc name hook? rows st hok hcells, ?_⟩
  rw [notify_Trace, pullsOf_append, pureRun_pullsOf]
  simp [pureStreamInit_char, pullsOf, List.range_eq_range']
  rw [List.range'_concat 0 rows.length]
  simp

/-- Witness for C8 at a concrete spec. -/
theorem C8_pull_protocol_witness :
    hookOk (none : Option (String → Except Err Unit)) ∧
    (∀ r ∈ ([{ Cells := some [] }] : List Row), r.Cells.isSome = true) ∧
    ∃ st', exportHelper noFail (([{ Cells := some [] }] : List Row).length + 1)
        ⟨"S", listSrc [{ Cells := some [] }], none⟩
        (streamInitFunc noFail ⟨"S", listSrc [{ Cells := some [] }], none⟩)
        (streamWriteRow noFail) (New "f" true)
      = some (.ok st')
    ∧ pullsOf st'.Trace = pullsOf (New "f" true).Trace
        ++ List.range (([{ Cells := some [] }] : List Row).length + 1) :=
  ⟨fun h s hh => Option.noConfusion hh, by decide,
    C8_pull_protocol "S" none [{ Cells := some [] }] (New "f" true)
      (fun h s hh => Option.noConfusion hh) (by decide)⟩

theorem sheetMaxRows_pos : 1 ≤ SheetMaxRows := by decide

/-- C2: a pulled Row with absent (`nil`) `Cells` ends the pull loop at once
— the run stops right after recording that pull, writing nothing for the
spec — while a present-but-empty `cells` sequence is written as a
legitimate zero-width row: a source yielding one present-but-empty row then
the sentinel produces exactly one written row (at physical row 1), and with
two such rows the row number advances (`[1, 2]`). -/
theorem C2_sentinel_vs_empty :
    (∀ (row : Row) (name : String) (hook? : Option (String → Except Err Unit)) (st : Exporter),
      row.Cells = none → hookOk hook? →
      exportHelper noFail 2 ⟨name, listSrc [row], hook?⟩
          (streamInitFunc noFail ⟨name, listSrc [row], hook?⟩) (streamWriteRow noFail) st
        = some (.ok (notify (pureStreamInit hook?.isSome { st with CurrentSheet := name })
            (.pulled 0))))
    ∧ (∀ (name fn : String), ∃ st',
        exportHelper noFail 2 ⟨name, listSrc [{ Cells := some [] }], none⟩
            (streamInitFunc noFail ⟨name, listSrc [{ Cells := some [] }], none⟩)
            (streamWriteRow noFail) (New fn true)
          = some (.ok st')
        ∧ setRowIDsOn name st'.Trace = [1])
    ∧ (∀ (name fn : String), ∃ st',
        exportHelper noFail 3 ⟨name, listSrc [{ Cells := some [] }, { Cells := some [] }], none⟩
            (streamInitFunc noFail ⟨name, listSrc [{ Cells := some [] }, { Cells := some [] }], none⟩)
            (streamWriteRow noFail) (New fn true)
          = some (.ok st')
        ∧ setRowIDsOn name st'.Trace = [1, 2]) := by
  have hok0 : hookOk (none : Option (String → Except Err Unit)) :=
    fun h s hh => Option.noConfusion hh
  refine ⟨?_, ?_, ?_⟩
  · intro row name hook? st hrow hok
    have hinit := streamInitFunc_noFail_hookOk ⟨name, listSrc [row], hook?⟩
      { st with CurrentSheet := name } hok
    simp only [exportHelper] at hinit ⊢
    rw [hinit]
    simp [exportLoop, listSrc, hrow]
  · intro name fn
    refine ⟨_, exportHelper_stream_listSrc name none [{ Cells := some [] }] (New fn true)
      hok0 (by decide), ?_⟩
    have hcap : (1 : Nat) + ([{ Cells := some [] }] : List Row).length ≤ SheetMaxRows + 1 := by
      have := sheetMaxRows_pos
      simp
      omega
    have hns := pureRun_noSplit name false [{ Cells := some [] }]
      ⟨1, 0, 0, pureStreamInit false { New fn true with CurrentSheet := name }⟩ hcap
    simp only [Option.isSome_none, notify_Trace, setRowIDsOn_append]
    rw [hns.2.2.2.2.2.2.2]
    simp [pureStreamInit_char, New, setRowIDsOn, flatRowEvents, rowEvents]
  · intro name fn
    refine ⟨_, exportHelper_stream_listSrc name none
      [{ Cells := some [] }, { Cells := some [] }] (New fn true) hok0 (by decide), ?_⟩
    have hcap : (1 : Nat)
        + ([{ Cells := some [] }, { Cells := some [] }] : List Row).length ≤ SheetMaxRows + 1 := by
      have h2 : 2 ≤ SheetMaxRows := by decide
      simp
      omega
    have hns := pureRun_noSplit name false [{ Cells := some [] }, { Cells := some [] }]
      ⟨1, 0, 0, pureStreamInit false { New fn true with CurrentSheet := name }⟩ hcap
    simp only [Option.isSome_none, notify_Trace, setRowIDsOn_append]
    rw [hns.2.2.2.2.2.2.2]
    simp [pureStreamInit_char, New, setRowIDsOn, flatRowEvents, rowEvents]

/-- Witness for C2's hypotheses at a concrete sentinel row and hook. -/
theorem C2_sentinel_vs_empty_witness :
    Row.zeroValue.Cells = none ∧
    exportHelper noFail 2 ⟨"S", listSrc [Row.zeroValue], none⟩
        (streamInitFunc noFail ⟨"S", listSrc [Row.zeroValue], none⟩)
        (streamWriteRow noFail) (New "f" true)
      = some (.ok (notify (pureStreamInit (none : Option (String → Except Err Unit)).isSome
          { New "f" true with CurrentSheet := "S" }) (.pulled 0))) :=
  ⟨rfl, C2_sentinel_vs_empty.1 Row.zeroValue "S" none (New "f" true) rfl
    (fun h s hh => Option.noConfusion hh)⟩

theorem suffix1_eq (name : String) : name ++ "_" ++ toString (0 + 1) = name ++ "_1" := by
  rw [String.append_assoc]
  rfl

theorem name_ne_suffix1 (name : String) : name ≠ name ++ "_1" := by
  intro he
  have hlen := congrArg String.length he
  rw [String.length_append] at hlen
  have : ("_1" : String).length = 2 := rfl
  omega

/-- The strategy-plus-save tail of a single-spec streaming export from a
prepared state `st2`, when the source holds exactly `SheetMaxRows + 1`
non-sentinel rows: one split occurs, producing the two physical sheets. -/
theorem C1_tail_split (name fn : String) (h : String → Except Err Unit)
    (rows : List Row) (st2 : Exporter)
    (hh : ∀ s, h s = .ok ()) (hcells : ∀ r ∈ rows, r.Cells.isSome = true)
    (hlen : rows.length = SheetMaxRows + 1)
    (hsheets : st2.Sheets = [name]) (hsw : st2.StreamWriter = none)
    (hfn : st2.FileName = fn)
    (hT1 : setRowIDsOn name st2.Trace = [])
    (hT2 : setRowIDsOn (name ++ "_1") st2.Trace = [])
    (hT3 : initsOf st2.Trace = []) :
    ∃ stM, exportUsingStreamWriter noFail (rows.length + 1)
              ⟨name, listSrc rows, some h⟩ st2
        = some (.ok stM)
      ∧ stM.Sheets = [name, name ++ "_1"]
      ∧ stM.FileName = fn
      ∧ setRowIDsOn name stM.Trace = List.range' 1 SheetMaxRows
      ∧ setRowIDsOn (name ++ "_1") stM.Trace = [1]
      ∧ initsOf stM.Trace = [name, name ++ "_1"] := by
  have hok : hookOk (some h) := by
    intro h' s hh'
    have hinj := Option.some.inj hh'
    subst hinj
    exact hh s
  have hneq := name_ne_suffix1 name
  obtain ⟨rl, hrl⟩ : ∃ rl, rows.drop SheetMaxRows = [rl] := by
    apply List.length_eq_one.mp
    rw [List.length_drop, hlen]
    omega
  have htake : (rows.take SheetMaxRows).length = SheetMaxRows :=
    List.length_take_of_le (by rw [hlen]; omega)
  have happ : rows.take SheetMaxRows ++ [rl] = rows := by
    rw [← hrl, List.take_append_drop]
  have hchar := exportHelper_stream_listSrc name (some h) rows st2 hok hcells
  simp only [Option.isSome_some] at hchar
  -- the final loop state
  have hrun : pureRun name true rows ⟨1, 0, 0, pureStreamInit true { st2 with CurrentSheet := name }⟩
      = pureStep name true
          (pureRun name true (rows.take SheetMaxRows)
            ⟨1, 0, 0, pureStreamInit true { st2 with CurrentSheet := name }⟩) rl := by
    conv_lhs => rw [← happ]
    rw [pureRun_append]
    simp [pureRun]
  -- projections of the start state
  have e0S : (pureStreamInit true { st2 with CurrentSheet := name }).Sheets = [name] := by
    simp [pureStreamInit_char, hsheets]
  have e0C : (pureStreamInit true { st2 with CurrentSheet := name }).CurrentSheet = name := by
    simp [pureStreamInit_char]
  have e0W : (pureStreamInit true { st2 with CurrentSheet := name }).StreamWriter = some name := by
    simp [pureStreamInit_char]
  have e0F : (pureStreamInit true { st2 with CurrentSheet := name }).FileName = fn := by
    simp [pureStreamInit_char, hfn]
  have e0T : (pureStreamInit true { st2 with CurrentSheet := name }).Trace
      = st2.Trace ++ initEvents false true name := by
    simp [pureStreamInit_char, hsw]
  -- projections after the split-free prefix
  have hns := pureRun_noSplit name true (rows.take SheetMaxRows)
    ⟨1, 0, 0, pureStreamInit true { st2 with CurrentSheet := name }⟩
    (by simp [htake] <;> omega)
  have hidx := pureRun_rowIndex name true (rows.take SheetMaxRows)
    ⟨1, 0, 0, pureStreamInit true { st2 with CurrentSheet := name }⟩
  simp only [htake, LoopSt_mk_rowID, LoopSt_mk_suffix, LoopSt_mk_rowIndex, LoopSt_mk_ex,
    Nat.zero_add] at hns hidx
  obtain ⟨l1ID, l1sfx, l1S, l1C, l1W, l1F, _, l1T⟩ := hns
  rw [e0S] at l1S
  rw [e0C] at l1C
  rw [e0W] at l1W
  rw [e0F] at l1F
  rw [e0T, e0W] at l1T
  simp only [Option.getD_some] at l1T
  -- the split step
  have hsplit : SheetMaxRows
      < (pureRun name true (rows.take SheetMaxRows)
          ⟨1, 0, 0, pureStreamInit true { st2 with CurrentSheet := name }⟩).rowID := by
    rw [l1ID]
    omega
  have hcont : (([name] : List String).contains (name ++ "_1")) = false := by
    simp
    exact fun he => hneq he.symm
  -- projections of the state after the split step
  have hstepS : (pureStep name true (pureRun name true (rows.take SheetMaxRows)
        ⟨1, 0, 0, pureStreamInit true { st2 with CurrentSheet := name }⟩) rl).ex.Sheets
      = [name, name ++ "_1"] := by
    simp only [pureStep]
    rw [if_pos hsplit]
    simp only [LoopSt_mk_ex, l1sfx, suffix1_eq, pureStreamRow_Sheets, pureStreamInit_Sheets,
      Exporter_mk_Sheets, appendSheet_Sheets, notify_Sheets, l1S, hcont]
    simp
  have hstepF : (pureStep name true (pureRun name true (rows.take SheetMaxRows)
        ⟨1, 0, 0, pureStreamInit true { st2 with CurrentSheet := name }⟩) rl).ex.FileName
      = fn := by
    simp only [pureStep]
    rw [if_pos hsplit]
    simp only [LoopSt_mk_ex, l1sfx, suffix1_eq, pureStreamRow_FileName, pureStreamInit_FileName,
      Exporter_mk_FileName, appendSheet_FileName, appendEv_FileName, notify_FileName, l1F]
  have hstepT : (pureStep name true (pureRun name true (rows.take SheetMaxRows)
        ⟨1, 0, 0, pureStreamInit true { st2 with CurrentSheet := name }⟩) rl).ex.Trace
      = (st2.Trace ++ initEvents false true name
          ++ flatRowEvents name 1 0 (rows.take SheetMaxRows))
        ++ [Event.pulled SheetMaxRows] ++ [Event.newSheet (name ++ "_1")]
        ++ initEvents true true (name ++ "_1")
        ++ rowEvents (name ++ "_1") 1 rl := by
    simp only [pureStep]
    rw [if_pos hsplit]
    simp only [LoopSt_mk_ex, l1sfx, suffix1_eq, pureStreamRow_Trace, pureStreamInit_Trace,
      pureStreamInit_StreamWriter, Exporter_mk_Trace, Exporter_mk_CurrentSheet,
      Exporter_mk_StreamWriter, appendSheet_Trace, appendSheet_StreamWriter,
      notify_Trace, notify_StreamWriter, l1T, l1W, hidx, Option.isSome_some, Option.getD_some]
  rw [hrun] at hchar
  simp only [exportUsingStreamWriter, hchar, opFlush_noFail]
  have hneq' : ¬ (name ++ "_1" = name) := fun he => hneq he.symm
  refine ⟨_, rfl, ?_, ?_, ?_, ?_, ?_⟩
  · simp [hstepS]
  · simp [hstepF]
  · simp only [appendEv_Trace, notify_Trace, hstepT, hlen]
    simp [setRowIDsOn, hT1, hT2, hneq, hneq', setRowIDsOn_flat, htake]
  · simp only [appendEv_Trace, notify_Trace, hstepT, hlen]
    simp [setRowIDsOn, hT1, hT2, hneq, hneq', setRowIDsOn_flat, htake]
  · simp only [appendEv_Trace, notify_Trace, hstepT, hlen]
    simp [initsOf, hT3, initsOf_flat]

/-- The strategy-plus-save tail of a single-spec streaming export from a
prepared state `st2`, when the source fits in one physical sheet: no split
occurs; the full final trace is given. -/
theorem export_tail_nosplit (name fn : String) (hook? : Option (String → Except Err Unit))
    (rows : List Row) (st2 : Exporter)
    (hok : hookOk hook?) (hcells : ∀ r ∈ rows, r.Cells.isSome = true)
    (hlen : rows.length ≤ SheetMaxRows)
    (hsw : st2.StreamWriter = none) (hfn : st2.FileName = fn) :
    ∃ stM, exportUsingStreamWriter noFail (rows.length + 1)
              ⟨name, listSrc rows, hook?⟩ st2
        = some (.ok stM)
      ∧ stM.Sheets = st2.Sheets
      ∧ stM.FileName = fn
      ∧ stM.Trace = st2.Trace ++ initEvents false hook?.isSome name
          ++ flatRowEvents name 1 0 rows ++ [Event.pulled rows.length]
          ++ [Event.flush] := by
  have hchar := exportHelper_stream_listSrc name hook? rows st2 hok hcells
  have hns := pureRun_noSplit name hook?.isSome rows
    ⟨1, 0, 0, pureStreamInit hook?.isSome { st2 with CurrentSheet := name }⟩
    (by simp <;> omega)
  simp only [LoopSt_mk_rowID, LoopSt_mk_suffix, LoopSt_mk_rowIndex, LoopSt_mk_ex] at hns
  obtain ⟨_, _, l1S, _, _, l1F, _, l1T⟩ := hns
  simp only [exportUsingStreamWriter, hchar, opFlush_noFail]
  refine ⟨_, rfl, ?_, ?_, ?_⟩
  · simp only [appendEv_Sheets, notify_Sheets, l1S]
    simp
  · simp only [appendEv_FileName, notify_FileName, l1F]
    simp [hfn]
  · simp only [appendEv_Trace, notify_Trace, l1T]
    simp [hsw, List.append_assoc]

/-- C1: a streaming export of one Sheet Spec whose source yields exactly
`SheetMaxRows + 1` non-sentinel rows produces exactly the two physical
sheets `name` and `name ++ "_1"`: the first holds stream row writes at
physical rows `1 .. SheetMaxRows`, the second exactly one row write at
physical row 1, and the init hook runs once per physical sheet, including
the split sheet.  With exactly `SheetMaxRows` rows, only the single
physical sheet `name` is produced. -/
theorem C1_sheet_split (name fn : String) (h : String → Except Err Unit)
    (rows : List Row) (hh : ∀ s, h s = .ok ())
    (hcells : ∀ r ∈ rows, r.Cells.isSome = true) :
    (rows.length = SheetMaxRows + 1 →
      ∃ stF, Export noFail (rows.length + 1) (New fn true) [⟨name, listSrc rows, some h⟩]
          = some (.ok stF)
        ∧ stF.Sheets = [name, name ++ "_1"]
        ∧ setRowIDsOn name stF.Trace = List.range' 1 SheetMaxRows
        ∧ setRowIDsOn (name ++ "_1") stF.Trace = [1]
        ∧ initsOf stF.Trace = [name, name ++ "_1"])
    ∧ (rows.length = SheetMaxRows →
      ∃ stF, Export noFail (rows.length + 1) (New fn true) [⟨name, listSrc rows, some h⟩]
          = some (.ok stF)
        ∧ stF.Sheets = [name]
        ∧ setRowIDsOn name stF.Trace = List.range' 1 SheetMaxRows
        ∧ initsOf stF.Trace = [name]) := by
  have hokS : hookOk (some h) := by
    intro h' s hh'
    have hinj := Option.some.inj hh'
    subst hinj
    exact hh s
  constructor
  · intro hlen
    by_cases hnm : name = "Sheet1"
    · subst hnm
      obtain ⟨stM, htail, hS, hF, h1, h2, h3⟩ :=
        C1_tail_split "Sheet1" fn h rows (appendSheet (New fn true) "Sheet1") hh hcells hlen
          (by simp [appendSheet_Sheets]) (by simp) (by simp)
          (by simp [setRowIDsOn]) (by simp [setRowIDsOn]) (by simp [initsOf])
      have hs11 : ("Sheet1" ++ "_1" : String) = "Sheet1_1" := rfl
      rw [hs11] at hS h2 h3
      refine ⟨appendEv stM (.saveAs fn), ?_, ?_, ?_, ?_, ?_⟩
      · simp only [Export, ExportLoop, wrapNewSheet_noFail]
        simp [appendSheet_Sheets, htail, hF]
      · simp [hS]
      · simp only [appendEv_Trace]
        simp [setRowIDsOn, h1]
      · simp only [appendEv_Trace]
        simp [setRowIDsOn, h2]
      · simp only [appendEv_Trace]
        simp [initsOf, h3]
    · obtain ⟨stM, htail, hS, hF, h1, h2, h3⟩ :=
        C1_tail_split name fn h rows
          ⟨[name], [Event.newSheet name, Event.deleteSheet "Sheet1"], 2, fn, "", true, none⟩
          hh hcells hlen
          (by simp) (by simp) (by simp)
          (by simp [setRowIDsOn]) (by simp [setRowIDsOn]) (by simp [initsOf])
      refine ⟨appendEv stM (.saveAs fn), ?_, ?_, ?_, ?_, ?_⟩
      · simp only [Export, ExportLoop, wrapNewSheet_noFail]
        simp [appendSheet_Sheets, hnm, htail, hF]
      · simp [hS]
      · simp only [appendEv_Trace]
        simp [setRowIDsOn, h1]
      · simp only [appendEv_Trace]
        simp [setRowIDsOn, h2]
      · simp only [appendEv_Trace]
        simp [initsOf, h3]
  · intro hlen
    by_cases hnm : name = "Sheet1"
    · subst hnm
      obtain ⟨stM, htail, hS, hF, hT⟩ :=
        export_tail_nosplit "Sheet1" fn (some h) rows (appendSheet (New fn true) "Sheet1")
          hokS hcells (le_of_eq hlen) (by simp) (by simp)
      refine ⟨appendEv stM (.saveAs fn), ?_, ?_, ?_, ?_⟩
      · simp only [Export, ExportLoop, wrapNewSheet_noFail]
        simp [appendSheet_Sheets, htail, hF]
      · rw [appendEv_Sheets, hS]
        simp [appendSheet_Sheets]
      · simp only [appendEv_Trace, hT]
        simp [setRowIDsOn, setRowIDsOn_flat, hlen]
      · simp only [appendEv_Trace, hT]
        simp [initsOf, initsOf_flat]
    · obtain ⟨stM, htail, hS, hF, hT⟩ :=
        export_tail_nosplit name fn (some h) rows
          ⟨[name], [Event.newSheet name, Event.deleteSheet "Sheet1"], 2, fn, "", true, none⟩
          hokS hcells (le_of_eq hlen) (by simp) (by simp)
      refine ⟨appendEv stM (.saveAs fn), ?_, ?_, ?_, ?_⟩
      · simp only [Export, ExportLoop, wrapNewSheet_noFail]
        simp [appendSheet_Sheets, hnm, htail, hF]
      · rw [appendEv_Sheets, hS]
      · simp only [appendEv_Trace, hT]
        simp [setRowIDsOn, setRowIDsOn_flat, hlen]
      · simp only [appendEv_Trace, hT]
        simp [initsOf, initsOf_flat]

/-- Witness for C1's hypotheses at a concrete spec (the capacity-exact
case, `SheetMaxRows` rows of zero width). -/
theorem C1_sheet_split_witness :
    (∀ s, (fun _ : String => (Except.ok () : Except Err Unit)) s = .ok ()) ∧
    (∀ r ∈ List.replicate SheetMaxRows ({ Cells := some [] } : Row), r.Cells.isSome = true) ∧
    (List.replicate SheetMaxRows ({ Cells := some [] } : Row)).length = SheetMaxRows ∧
    ∃ stF, Export noFail ((List.replicate SheetMaxRows ({ Cells := some [] } : Row)).length + 1)
        (New "f" true)
        [⟨"Data", listSrc (List.replicate SheetMaxRows ({ Cells := some [] } : Row)),
          some (fun _ => .ok ())⟩]
        = some (.ok stF)
      ∧ stF.Sheets = ["Data"]
      ∧ setRowIDsOn "Data" stF.Trace = List.range' 1 SheetMaxRows
      ∧ initsOf stF.Trace = ["Data"] :=
  ⟨fun _ => rfl,
   fun r hr => by rw [List.eq_of_mem_replicate hr]; rfl,
   by simp,
   (C1_sheet_split "Data" "f" (fun _ => .ok ())
      (List.replicate SheetMaxRows { Cells := some [] }) (fun _ => rfl)
      (fun r hr => by rw [List.eq_of_mem_replicate hr]; rfl)).2 (by simp)⟩

/-- C10: the deletion targets the literal name `"Sheet1"`, and a first spec
itself named `"Sheet1"` leaves the workbook with exactly that one sheet:
`NewSheet` finds the name taken, the sheet count stays 1, no deletion
happens, and the rows land in the original default placeholder sheet. -/
theorem C10_sheet1_name (fn : String) (hook? : Option (String → Except Err Unit))
    (rows : List Row) (hok : hookOk hook?)
    (hcells : ∀ r ∈ rows, r.Cells.isSome = true) (hlen : rows.length ≤ SheetMaxRows) :
    ∃ stF, Export noFail (rows.length + 1) (New fn true) [⟨"Sheet1", listSrc rows, hook?⟩]
        = some (.ok stF)
      ∧ stF.Sheets = ["Sheet1"]
      ∧ delsOf stF.Trace = []
      ∧ setRowIDsOn "Sheet1" stF.Trace = List.range' 1 rows.length := by
  obtain ⟨stM, htail, hS, hF, hT⟩ :=
    export_tail_nosplit "Sheet1" fn hook? rows (appendSheet (New fn true) "Sheet1")
      hok hcells hlen (by simp) (by simp)
  refine ⟨appendEv stM (.saveAs fn), ?_, ?_, ?_, ?_⟩
  · simp only [Export, ExportLoop, wrapNewSheet_noFail]
    simp [appendSheet_Sheets, htail, hF]
  · rw [appendEv_Sheets, hS]
    simp [appendSheet_Sheets]
  · simp only [appendEv_Trace, hT]
    simp [delsOf, delsOf_flat, apply_ite delsOf]
  · simp only [appendEv_Trace, hT]
    simp [setRowIDsOn, setRowIDsOn_flat, apply_ite (setRowIDsOn "Sheet1")]

/-- Witness for C10 at a concrete spec. -/
theorem C10_sheet1_name_witness :
    hookOk (none : Option (String → Except Err Unit)) ∧
    (∀ r ∈ ([{ Cells := some [] }] : List Row), r.Cells.isSome = true) ∧
    ([{ Cells := some [] }] : List Row).length ≤ SheetMaxRows ∧
    ∃ stF, Export noFail (([{ Cells := some [] }] : List Row).length + 1) (New "f" true)
        [⟨"Sheet1", listSrc [{ Cells := some [] }], none⟩]
        = some (.ok stF)
      ∧ stF.Sheets = ["Sheet1"]
      ∧ delsOf stF.Trace = []
      ∧ setRowIDsOn "Sheet1" stF.Trace
          = List.range' 1 ([{ Cells := some [] }] : List Row).length :=
  ⟨fun h s hh => Option.noConfusion hh, by decide, by decide,
   C10_sheet1_name "f" none [{ Cells := some [] }]
     (fun h s hh => Option.noConfusion hh) (by decide) (by decide)⟩

/-! ## Generic propagation of a preorder along successful runs -/

theorem splitIfNeeded_rel (R : Exporter → Exporter → Prop)
    (htrans : ∀ a b c, R a b → R b c → R a c)
    (hrefl : ∀ a, R a a)
    (sheet : SheetData) (initF : Exporter → Except (Err × Exporter) Exporter) (bo : Oracle)
    (hNew : ∀ st nm st', wrapNewSheet bo nm st = .ok st' → R st st')
    (hCur : ∀ st nm, R st { st with CurrentSheet := nm })
    (hInit : ∀ st st', initF st = .ok st' → R st st') :
    ∀ rowID suffix st rowID' suffix' st',
      splitIfNeeded bo sheet initF rowID suffix st = .ok (rowID', suffix', st') → R st st' := by
  intro rowID suffix st rowID' suffix' st' hrun
  by_cases hsp : SheetMaxRows < rowID
  · simp only [splitIfNeeded, hsp, if_true] at hrun
    rcases hw : wrapNewSheet bo (sheet.Name ++ "_" ++ toString (suffix + 1)) st with es | st1
    · rw [hw] at hrun
      simp at hrun
    · rw [hw] at hrun
      simp only [exceptBind_ok] at hrun
      rcases hi : initF { st1 with CurrentSheet := sheet.Name ++ "_" ++ toString (suffix + 1) }
        with es | st2
      · rw [hi] at hrun
        simp at hrun
      · rw [hi] at hrun
        simp at hrun
        rw [← hrun.2.2]
        exact htrans _ _ _ (hNew _ _ _ hw) (htrans _ _ _ (hCur st1 _) (hInit _ _ hi))
  · simp only [splitIfNeeded, hsp, if_false] at hrun
    simp at hrun
    rw [← hrun.2.2]
    exact hrefl st

theorem exportLoop_rel (R : Exporter → Exporter → Prop)
    (htrans : ∀ a b c, R a b → R b c → R a c)
    (hrefl : ∀ a, R a a)
    (sheet : SheetData) (initF : Exporter → Except (Err × Exporter) Exporter)
    (writeF : Exporter → Nat → Row → Except (Err × Exporter) Exporter) (bo : Oracle)
    (hPull : ∀ st i, R st (notify st (.pulled i)))
    (hNew : ∀ st nm st', wrapNewSheet bo nm st = .ok st' → R st st')
    (hCur : ∀ st nm, R st { st with CurrentSheet := nm })
    (hInit : ∀ st st', initF st = .ok st' → R st st')
    (hWrite : ∀ st r row st', writeF st r row = .ok st' → R st st') :
    ∀ fuel rowID suffix k st st',
      exportLoop sheet initF writeF bo fuel rowID suffix k st = some (.ok st') → R st st' := by
  intro fuel
  induction fuel with
  | zero =>
    intro rowID suffix k st st' hrun
    simp [exportLoop] at hrun
  | succ fuel ih =>
    intro rowID suffix k st st' hrun
    simp only [exportLoop] at hrun
    rcases hp : sheet.RowFunc k with e | row
    · rw [hp] at hrun
      simp at hrun
    · rw [hp] at hrun
      by_cases hc : row.Cells.isNone
      · simp only [hc, if_true] at hrun
        simp at hrun
        rw [← hrun]
        exact hPull st k
      · simp only [hc, Bool.false_eq_true, if_false] at hrun
        rcases hsp : splitIfNeeded bo sheet initF rowID suffix (notify st (.pulled k))
          with es | ⟨rowID', suffix', st2⟩
        · rw [hsp] at hrun
          simp at hrun
        · rw [hsp] at hrun
          dsimp only at hrun
          rcases hw : writeF st2 rowID' row with es | st3
          · rw [hw] at hrun
            simp at hrun
          · rw [hw] at hrun
            have h01 := hPull st k
            have h12 := splitIfNeeded_rel R htrans hrefl sheet initF bo hNew hCur hInit
              _ _ _ _ _ _ hsp
            have h23 := hWrite _ _ _ _ hw
            have h34 := ih _ _ _ _ _ hrun
            exact htrans _ _ _ h01 (htrans _ _ _ h12 (htrans _ _ _ h23 h34))

theorem exportHelper_rel (R : Exporter → Exporter → Prop)
    (htrans : ∀ a b c, R a b → R b c → R a c)
    (hrefl : ∀ a, R a a)
    (bo : Oracle) (fuel : Nat) (sheet : SheetData)
    (initF : Exporter → Except (Err × Exporter) Exporter)
    (writeF : Exporter → Nat → Row → Except (Err × Exporter) Exporter)
    (hPull : ∀ st i, R st (notify st (.pulled i)))
    (hNew : ∀ st nm st', wrapNewSheet bo nm st = .ok st' → R st st')
    (hCur : ∀ st nm, R st { st with CurrentSheet := nm })
    (hInit : ∀ st st', initF st = .ok st' → R st st')
    (hWrite : ∀ st r row st', writeF st r row = .ok st' → R st st') :
    ∀ st st', exportHelper bo fuel sheet initF writeF st = some (.ok st') → R st st' := by
  intro st st' hrun
  simp only [exportHelper] at hrun
  rcases hi : initF { st with CurrentSheet := sheet.Name } with es | st1
  · rw [hi] at hrun
    simp at hrun
  · rw [hi] at hrun
    have h12 := exportLoop_rel R htrans hrefl sheet initF writeF bo hPull hNew hCur hInit hWrite
      _ _ _ _ _ _ hrun
    exact htrans _ _ _ (htrans _ _ _ (hCur st sheet.Name) (hInit _ _ hi)) h12

theorem exportUsingStreamWriter_rel (R : Exporter → Exporter → Prop)
    (htrans : ∀ a b c, R a b → R b c → R a c)
    (hrefl : ∀ a, R a a)
    (bo : Oracle) (fuel : Nat) (sheet : SheetData)
    (hPull : ∀ st i, R st (notify st (.pulled i)))
    (hNew : ∀ st nm st', wrapNewSheet bo nm st = .ok st' → R st st')
    (hCur : ∀ st nm, R st { st with CurrentSheet := nm })
    (hInit : ∀ st st', streamInitFunc bo sheet st = .ok st' → R st st')
    (hWrite : ∀ st r row st', streamWriteRow bo st r row = .ok st' → R st st')
    (hFlush : ∀ st st', opFlush bo st = .ok st' → R st st') :
    ∀ st st', exportUsingStreamWriter bo fuel sheet st = some (.ok st') → R st st' := by
  intro st st' hrun
  simp only [exportUsingStreamWriter] at hrun
  rcases hh : exportHelper bo fuel sheet (streamInitFunc bo sheet) (streamWriteRow bo) st
    with _ | r
  · rw [hh] at hrun
    simp at hrun
  · rcases r with es | st1
    · rw [hh] at hrun
      simp at hrun
    · rw [hh] at hrun
      simp only [] at hrun
      rcases hf : opFlush bo st1 with es | st2
      · rw [hf] at hrun
        simp at hrun
      · rw [hf] at hrun
        simp at hrun
        rw [← hrun]
        exact htrans _ _ _
          (exportHelper_rel R htrans hrefl bo fuel sheet _ _ hPull hNew hCur hInit hWrite _ _ hh)
          (hFlush _ _ hf)

theorem exportUsingMemory_rel (R : Exporter → Exporter → Prop)
    (htrans : ∀ a b c, R a b → R b c → R a c)
    (hrefl : ∀ a, R a a)
    (bo : Oracle) (fuel : Nat) (sheet : SheetData)
    (hPull : ∀ st i, R st (notify st (.pulled i)))
    (hNew : ∀ st nm st', wrapNewSheet bo nm st = .ok st' → R st st')
    (hCur : ∀ st nm, R st { st with CurrentSheet := nm })
    (hInit : ∀ st st', memInitFunc sheet st = .ok st' → R st st')
    (hWrite : ∀ st r row st', memWriteRow bo st r row = .ok st' → R st st') :
    ∀ st st', exportUsingMemory bo fuel sheet st = some (.ok st') → R st st' :=
  fun st st' hrun =>
    exportHelper_rel R htrans hrefl bo fuel sheet _ _ hPull hNew hCur hInit hWrite st st' hrun

theorem ExportLoop_rel (R : Exporter → Exporter → Prop)
    (htrans : ∀ a b c, R a b → R b c → R a c)
    (hrefl : ∀ a, R a a)
    (bo : Oracle) (fuel : Nat)
    (hNew : ∀ st nm st', wrapNewSheet bo nm st = .ok st' → R st st')
    (hSave : ∀ st st', opSaveAs bo st.FileName st = .ok st' → R st st')
    (hStrat : ∀ (sheet : SheetData) st st',
        (if st.UseStreamWriter then exportUsingStreamWriter bo fuel sheet st
         else exportUsingMemory bo fuel sheet st) = some (.ok st') → R st st') :
    ∀ (specs : List SheetData) (i : Nat) (st st' : Exporter), 1 ≤ i →
      ExportLoop bo fuel i specs st = some (.ok st') → R st st' := by
  intro specs
  induction specs with
  | nil =>
    intro i st st' hi hrun
    simp only [ExportLoop] at hrun
    rcases hs : opSaveAs bo st.FileName st with es | st1
    · rw [hs] at hrun
      simp at hrun
    · rw [hs] at hrun
      simp at hrun
      rw [← hrun]
      exact hSave _ _ hs
  | cons s rest ih =>
    intro i st st' hi hrun
    simp only [ExportLoop] at hrun
    rcases hw : wrapNewSheet bo s.Name st with es | st1
    · rw [hw] at hrun
      simp at hrun
    · rw [hw] at hrun
      dsimp only at hrun
      have hcond : ¬ (i = 0 ∧ 1 < st1.Sheets.length) := fun hx => by omega
      rw [if_neg hcond] at hrun
      dsimp only at hrun
      rcases hres : (if st1.UseStreamWriter then exportUsingStreamWriter bo fuel s st1
                     else exportUsingMemory bo fuel s st1) with _ | r
      · rw [hres] at hrun
        simp at hrun
      · rcases r with es | st2
        · rw [hres] at hrun
          simp at hrun
        · rw [hres] at hrun
          simp only [] at hrun
          exact htrans _ _ _ (hNew _ _ _ hw)
            (htrans _ _ _ (hStrat s _ _ hres) (ih (i + 1) st2 st' (by omega) hrun))

/-! ## C6: deletion-free trace extension -/

theorem TExt_refl (a : Exporter) : TExt a a := ⟨[], by simp, rfl⟩

theorem TExt_trans (a b c : Exporter) (h1 : TExt a b) (h2 : TExt b c) : TExt a c := by
  obtain ⟨d1, hd1, hn1⟩ := h1
  obtain ⟨d2, hd2, hn2⟩ := h2
  exact ⟨d1 ++ d2, by rw [hd2, hd1, List.append_assoc], by simp [hn1, hn2]⟩

theorem delsOf_memCellEvents (sh : String) (rid : Nat) :
    ∀ (cs : List Cell) (j : Nat), delsOf (memCellEvents sh rid j cs) = [] := by
  intro cs
  induction cs with
  | nil => intro j; simp [memCellEvents, delsOf]
  | cons c rest ih =>
    intro j
    by_cases hs : 0 < c.StyleID <;> by_cases hf : c.Formula ≠ "" <;>
      simp [memCellEvents, delsOf, hs, hf, ih]

theorem delsOf_memMergeEvents (sh : String) (ms : List MergeCell) :
    delsOf (memMergeEvents sh ms) = [] := by
  induction ms with
  | nil => simp [memMergeEvents, delsOf]
  | cons m rest ih => simpa [memMergeEvents, delsOf] using ih

theorem TExt_pull (st : Exporter) (i : Nat) : TExt st (notify st (.pulled i)) :=
  ⟨[.pulled i], by simp, by simp [delsOf]⟩

theorem TExt_new (st : Exporter) (nm : String) (st' : Exporter)
    (h : wrapNewSheet noFail nm st = .ok st') : TExt st st' := by
  rw [wrapNewSheet_noFail] at h
  have h2 := Except.ok.inj h
  exact ⟨[.newSheet nm], by rw [← h2]; simp, by simp [delsOf]⟩

theorem TExt_cur (st : Exporter) (nm : String) : TExt st { st with CurrentSheet := nm } :=
  ⟨[], by simp, rfl⟩

theorem TExt_streamInit (sheet : SheetData) (st st' : Exporter)
    (h : streamInitFunc noFail sheet st = .ok st') : TExt st st' := by
  have h2 := streamInitFunc_noFail_inv sheet st st' h
  exact ⟨initEvents st.StreamWriter.isSome sheet.InitFunc.isSome st.CurrentSheet,
    by rw [h2]; simp, by simp⟩

theorem TExt_streamWrite (st : Exporter) (r : Nat) (row : Row) (st' : Exporter)
    (h : streamWriteRow noFail st r row = .ok st') : TExt st st' := by
  rw [streamWriteRow_noFail] at h
  have h2 := Except.ok.inj h
  exact ⟨rowEvents (st.StreamWriter.getD "") r row, by rw [← h2]; simp, by simp⟩

theorem TExt_flush (st st' : Exporter) (h : opFlush noFail st = .ok st') : TExt st st' := by
  rw [opFlush_noFail] at h
  have h2 := Except.ok.inj h
  exact ⟨[.flush], by rw [← h2]; simp, by simp [delsOf]⟩

theorem TExt_save (st st' : Exporter) (h : opSaveAs noFail st.FileName st = .ok st') :
    TExt st st' := by
  rw [opSaveAs_noFail] at h
  have h2 := Except.ok.inj h
  exact ⟨[.saveAs st.FileName], by rw [← h2]; simp, by simp [delsOf]⟩

theorem TExt_memInit (sheet : SheetData) (st st' : Exporter)
    (h : memInitFunc sheet st = .ok st') : TExt st st' := by
  cases hif : sheet.InitFunc with
  | none =>
    rw [memInitFunc, hif] at h
    have h2 := Except.ok.inj h
    rw [← h2]
    exact TExt_refl st
  | some f =>
    rw [memInitFunc, hif] at h
    dsimp only at h
    rcases hr : f st.CurrentSheet with e | u
    · rw [hr] at h
      cases h
    · rw [hr] at h
      have h2 := Except.ok.inj h
      exact ⟨[.initCalled st.CurrentSheet], by rw [← h2]; simp, by simp [delsOf]⟩

theorem TExt_memWrite (st : Exporter) (r : Nat) (row : Row) (st' : Exporter)
    (h : memWriteRow noFail st r row = .ok st') : TExt st st' := by
  rw [memWriteRow_noFail] at h
  have h2 := Except.ok.inj h
  refine ⟨memCellEvents st.CurrentSheet r 0 (row.Cells.getD []) ++
    memMergeEvents st.CurrentSheet row.MergeCells, ?_, ?_⟩
  · rw [← h2]
  · simp [delsOf_memCellEvents, delsOf_memMergeEvents]

theorem strat_TExt (fuel : Nat) (sheet : SheetData) (st st' : Exporter)
    (h : (if st.UseStreamWriter then exportUsingStreamWriter noFail fuel sheet st
          else exportUsingMemory noFail fuel sheet st) = some (.ok st')) : TExt st st' := by
  by_cases hu : st.UseStreamWriter = true
  · rw [if_pos hu] at h
    exact exportUsingStreamWriter_rel TExt TExt_trans TExt_refl noFail fuel sheet
      TExt_pull TExt_new TExt_cur (TExt_streamInit sheet) TExt_streamWrite TExt_flush st st' h
  · rw [if_neg hu] at h
    exact exportUsingMemory_rel TExt TExt_trans TExt_refl noFail fuel sheet
      TExt_pull TExt_new TExt_cur (TExt_memInit sheet) TExt_memWrite st st' h

/-- C6: an export with zero Sheet Specs performs no deletion (the final
trace is just the save, the placeholder untouched); with at least one spec,
the placeholder `"Sheet1"` is deleted exactly once and only at the creation
of the very first logical sheet, and only when the workbook then holds more
than one sheet — in particular not at all when the first spec is itself
named `"Sheet1"`. -/
theorem C6_placeholder_deletion :
    (∀ (us : Bool) (fn : String) (fuel : Nat),
      Export noFail fuel (New fn us) []
        = some (.ok ⟨["Sheet1"], [Event.saveAs fn], 1, fn, "", us, none⟩))
    ∧ (∀ (us : Bool) (fn : String) (fuel : Nat) (spec : SheetData) (rest : List SheetData)
        (st' : Exporter),
        Export noFail fuel (New fn us) (spec :: rest) = some (.ok st') →
        (spec.Name = "Sheet1" → delsOf st'.Trace = [])
        ∧ (spec.Name ≠ "Sheet1" →
            ∃ tr, st'.Trace = Event.newSheet spec.Name :: Event.deleteSheet "Sheet1" :: tr
              ∧ delsOf tr = [])) := by
  constructor
  · intro us fn fuel
    rfl
  · intro us fn fuel spec rest st' hrun
    simp only [Export, ExportLoop, wrapNewSheet_noFail] at hrun
    constructor
    · intro hnm
      rw [hnm] at hrun
      have hcond : ¬ (True ∧ 1 < (appendSheet (New fn us) "Sheet1").Sheets.length) := by
        simp [appendSheet_Sheets]
      rw [if_neg hcond] at hrun
      dsimp only at hrun
      rcases hres : (if (appendSheet (New fn us) "Sheet1").UseStreamWriter = true then
          exportUsingStreamWriter noFail fuel spec (appendSheet (New fn us) "Sheet1")
          else exportUsingMemory noFail fuel spec (appendSheet (New fn us) "Sheet1"))
        with _ | r
      · rw [hres] at hrun
        simp at hrun
      · rcases r with es | st2
        · rw [hres] at hrun
          simp at hrun
        · rw [hres] at hrun
          dsimp only at hrun
          have h12 : TExt (appendSheet (New fn us) "Sheet1") st2 := strat_TExt fuel spec _ _ hres
          have h23 : TExt st2 st' :=
            ExportLoop_rel TExt TExt_trans TExt_refl noFail fuel TExt_new TExt_save
              (fun sheet st st' h => strat_TExt fuel sheet st st' h)
              rest (0 + 1) st2 st' (by omega) hrun
          obtain ⟨d, hd, hn⟩ := TExt_trans _ _ _ h12 h23
          rw [hd]
          simp [delsOf, hn]
    · intro hnm
      have hcond : (True ∧ 1 < (appendSheet (New fn us) spec.Name).Sheets.length) := by
        refine ⟨trivial, ?_⟩
        simp [appendSheet_Sheets, hnm]
      rw [if_pos hcond, opDeleteSheet_noFail] at hrun
      dsimp only at hrun
      rcases hres : (if ({ appendEv (appendSheet (New fn us) spec.Name) (.deleteSheet "Sheet1") with
            Sheets := (appendSheet (New fn us) spec.Name).Sheets.erase "Sheet1" } : Exporter).UseStreamWriter = true then
          exportUsingStreamWriter noFail fuel spec
            { appendEv (appendSheet (New fn us) spec.Name) (.deleteSheet "Sheet1") with
              Sheets := (appendSheet (New fn us) spec.Name).Sheets.erase "Sheet1" }
          else exportUsingMemory noFail fuel spec
            { appendEv (appendSheet (New fn us) spec.Name) (.deleteSheet "Sheet1") with
              Sheets := (appendSheet (New fn us) spec.Name).Sheets.erase "Sheet1" })
        with _ | r
      · rw [hres] at hrun
        simp at hrun
      · rcases r with es | st2
        · rw [hres] at hrun
          simp at hrun
        · rw [hres] at hrun
          dsimp only at hrun
          have h12 : TExt _ st2 := strat_TExt fuel spec _ _ hres
          have h23 : TExt st2 st' :=
            ExportLoop_rel TExt TExt_trans TExt_refl noFail fuel TExt_new TExt_save
              (fun sheet st st' h => strat_TExt fuel sheet st st' h)
              rest (0 + 1) st2 st' (by omega) hrun
          obtain ⟨d, hd, hn⟩ := TExt_trans _ _ _ h12 h23
          refine ⟨d, ?_, hn⟩
          rw [hd]
          simp

/-- Witness for C6 at a concrete run: exporting one sheet named "A" with no rows
(memory strategy) succeeds, the trace starts with creating "A" and deleting the
placeholder "Sheet1", and no further `deleteSheet` appears in the remainder. -/
theorem C6_placeholder_deletion_witness :
    ∃ tr,
      (Exporter.mk ["A"]
          [Event.newSheet "A", Event.deleteSheet "Sheet1", Event.pulled 0, Event.saveAs "f"]
          3 "f" "A" false none).Trace
        = Event.newSheet "A" :: Event.deleteSheet "Sheet1" :: tr ∧ delsOf tr = [] :=
  (C6_placeholder_deletion.2 false "f" 1 ⟨"A", listSrc [], none⟩ []
      ⟨["A"], [Event.newSheet "A", Event.deleteSheet "Sheet1", Event.pulled 0, Event.saveAs "f"],
        3, "f", "A", false, none⟩ rfl).2 (by decide)

/-! ## C4: the flush discipline of the streaming strategy

A small automaton scans a trace carrying a flag that records whether a
stream has been opened and not yet flushed (`exporter.go:80-85` flushes any
previously active stream before `NewStreamWriter`; `exporter.go:123` is the
final flush before `Export` reaches `SaveAs`). -/

@[simp] theorem activeStep_newSheet (a : Bool) (nm : String) : activeStep a (.newSheet nm) = a := rfl

@[simp] theorem activeStep_deleteSheet (a : Bool) (nm : String) : activeStep a (.deleteSheet nm) = a := rfl

@[simp] theorem activeStep_setCellValue (a : Bool) (s : String) (c r : Nat) (v : CellValue) : activeStep a (.setCellValue s c r v) = a := rfl

@[simp] theorem activeStep_setCellStyle (a : Bool) (s : String) (c r : Nat) (sid : Int) : activeStep a (.setCellStyle s c r sid) = a := rfl

@[simp] theorem activeStep_setCellFormula (a : Bool) (s : String) (c r : Nat) (f : String) : activeStep a (.setCellFormula s c r f) = a := rfl

@[simp] theorem activeStep_mergeCell (a : Bool) (s tl br : String) : activeStep a (.mergeCell s tl br) = a := rfl

@[simp] theorem activeStep_openStream (a : Bool) (s : String) : activeStep a (.openStream s) = true := rfl

@[simp] theorem activeStep_streamSetRow (a : Bool) (s : String) (c r : Nat) (cs : List Cell) (o : List RowOpt) : activeStep a (.streamSetRow s c r cs o) = a := rfl

@[simp] theorem activeStep_streamMerge (a : Bool) (s tl br : String) : activeStep a (.streamMerge s tl br) = a := rfl

@[simp] theorem activeStep_flush (a : Bool) : activeStep a .flush = false := rfl

@[simp] theorem activeStep_saveAs (a : Bool) (nm : String) : activeStep a (.saveAs nm) = a := rfl

@[simp] theorem activeStep_initCalled (a : Bool) (s : String) : activeStep a (.initCalled s) = a := rfl

@[simp] theorem activeStep_pulled (a : Bool) (i : Nat) : activeStep a (.pulled i) = a := rfl

@[simp] theorem evOK_newSheet (a : Bool) (nm : String) : evOK a (.newSheet nm) = true := rfl

@[simp] theorem evOK_deleteSheet (a : Bool) (nm : String) : evOK a (.deleteSheet nm) = true := rfl

@[simp] theorem evOK_setCellValue (a : Bool) (s : String) (c r : Nat) (v : CellValue) : evOK a (.setCellValue s c r v) = true := rfl

@[simp] theorem evOK_setCellStyle (a : Bool) (s : String) (c r : Nat) (sid : Int) : evOK a (.setCellStyle s c r sid) = true := rfl

@[simp] theorem evOK_setCellFormula (a : Bool) (s : String) (c r : Nat) (f : String) : evOK a (.setCellFormula s c r f) = true := rfl

@[simp] theorem evOK_mergeCell (a : Bool) (s tl br : String) : evOK a (.mergeCell s tl br) = true := rfl

@[simp] theorem evOK_openStream (a : Bool) (s : String) : evOK a (.openStream s) = !a := rfl

@[simp] theorem evOK_streamSetRow (a : Bool) (s : String) (c r : Nat) (cs : List Cell) (o : List RowOpt) : evOK a (.streamSetRow s c r cs o) = a := rfl

@[simp] theorem evOK_streamMerge (a : Bool) (s tl br : String) : evOK a (.streamMerge s tl br) = a := rfl

@[simp] theorem evOK_flush (a : Bool) : evOK a .flush = true := rfl

@[simp] theorem evOK_saveAs (a : Bool) (nm : String) : evOK a (.saveAs nm) = !a := rfl

@[simp] theorem evOK_initCalled (a : Bool) (s : String) : evOK a (.initCalled s) = true := rfl

@[simp] theorem evOK_pulled (a : Bool) (i : Nat) : evOK a (.pulled i) = true := rfl

@[simp] theorem activeAux_nil (a : Bool) : activeAux a [] = a := rfl

@[simp] theorem activeAux_cons (a : Bool) (e : Event) (t : List Event) :
    activeAux a (e :: t) = activeAux (activeStep a e) t := rfl

@[simp] theorem flushOKAux_nil (a : Bool) : flushOKAux a [] = true := rfl

@[simp] theorem flushOKAux_cons (a : Bool) (e : Event) (t : List Event) :
    flushOKAux a (e :: t) = (evOK a e && flushOKAux (activeStep a e) t) := rfl

@[simp] theorem activeAux_append (t1 t2 : List Event) :
    ∀ a, activeAux a (t1 ++ t2) = activeAux (activeAux a t1) t2 := by
  induction t1 with
  | nil => intro a; simp
  | cons e rest ih => intro a; simp [ih]

@[simp] theorem flushOKAux_append (t1 t2 : List Event) :
    ∀ a, flushOKAux a (t1 ++ t2) = (flushOKAux a t1 && flushOKAux (activeAux a t1) t2) := by
  induction t1 with
  | nil => intro a; simp
  | cons e rest ih => intro a; simp [ih, Bool.and_assoc]

/-- The events of a successful `streamInitFunc` run end with the stream
pending, and respect the discipline exactly when a stream handle existed
(so the conditional flush ran) or no stream was pending. -/
theorem initEvents_flushOKAux (a b hk : Bool) (c : String) :
    flushOKAux a (initEvents b hk c) = (b || !a) := by
  cases a <;> cases b <;> cases hk <;> simp [initEvents]

theorem initEvents_activeAux (a b hk : Bool) (c : String) :
    activeAux a (initEvents b hk c) = true := by
  cases b <;> cases hk <;> simp [initEvents]

theorem streamMergeEvs_flushOKAux (sh : String) :
    ∀ ms : List MergeCell,
      flushOKAux true (ms.map fun m => Event.streamMerge sh m.TopLeftCell m.BottomRightCell) = true
      ∧ activeAux true (ms.map fun m => Event.streamMerge sh m.TopLeftCell m.BottomRightCell)
          = true := by
  intro ms
  induction ms with
  | nil => simp
  | cons m rest ih => simp [ih]

/-- The events of a streaming row write keep the stream pending and respect
the discipline, given the stream was pending before. -/
theorem rowEvents_flushOKAux (sh : String) (rid : Nat) (row : Row) :
    flushOKAux true (rowEvents sh rid row) = true
    ∧ activeAux true (rowEvents sh rid row) = true := by
  simp [rowEvents, streamMergeEvs_flushOKAux]

theorem LInv_pull (st : Exporter) (i : Nat) (h : LInv st) : LInv (notify st (.pulled i)) := by
  obtain ⟨h1, h2, h3⟩ := h
  refine ⟨?_, ?_, by simp [h3]⟩
  · simp [h1, h2]
  · simp [h2]

theorem LInv_new (st : Exporter) (nm : String) (st' : Exporter)
    (hr : wrapNewSheet noFail nm st = .ok st') (h : LInv st) : LInv st' := by
  rw [wrapNewSheet_noFail] at hr
  injection hr with hh
  subst hh
  obtain ⟨h1, h2, h3⟩ := h
  refine ⟨?_, ?_, by simp [h3]⟩
  · simp [h1, h2]
  · simp [h2]

theorem LInv_cur (st : Exporter) (nm : String) (h : LInv st) :
    LInv { st with CurrentSheet := nm } := by
  obtain ⟨h1, h2, h3⟩ := h
  exact ⟨h1, h2, h3⟩

theorem LInv_init (sheet : SheetData) (st st' : Exporter)
    (hr : streamInitFunc noFail sheet st = .ok st') (h : LInv st) : LInv st' := by
  obtain ⟨h1, h2, h3⟩ := h
  have hh := streamInitFunc_noFail_inv sheet st st' hr
  subst hh
  refine ⟨?_, ?_, by simp⟩
  · simp [h1, h2, initEvents_flushOKAux, h3]
  · simp [h2, initEvents_activeAux]

theorem LInv_write (st : Exporter) (r : Nat) (row : Row) (st' : Exporter)
    (hr : streamWriteRow noFail st r row = .ok st') (h : LInv st) : LInv st' := by
  rw [streamWriteRow_noFail] at hr
  injection hr with hh
  subst hh
  obtain ⟨h1, h2, h3⟩ := h
  refine ⟨?_, ?_, by simp [h3]⟩
  · simp [h1, h2, (rowEvents_flushOKAux _ _ _).1]
  · simp [h2, (rowEvents_flushOKAux _ _ _).2]

/-- The streaming pull loop preserves the in-loop flush invariant. -/
theorem exportLoop_LInv (sheet : SheetData) (fuel rowID suffix k : Nat) (st st' : Exporter)
    (hrun : exportLoop sheet (streamInitFunc noFail sheet) (streamWriteRow noFail) noFail fuel
        rowID suffix k st = some (.ok st')) :
    LInv st → LInv st' :=
  exportLoop_rel (fun a b => LInv a → LInv b)
    (fun _ _ _ hab hbc ha => hbc (hab ha))
    (fun _ ha => ha)
    sheet _ _ noFail
    (fun st i h => LInv_pull st i h)
    (fun st nm st' hr h => LInv_new st nm st' hr h)
    (fun st nm h => LInv_cur st nm h)
    (fun st st' hr h => LInv_init sheet st st' hr h)
    (fun st r row st' hr h => LInv_write st r row st' hr h)
    fuel rowID suffix k st st' hrun

theorem LInv_boundary_init (sheet : SheetData) (st st' : Exporter)
    (hr : streamInitFunc noFail sheet { st with CurrentSheet := sheet.Name } = .ok st')
    (h : BInv st) : LInv st' := by
  obtain ⟨h1, h2⟩ := h
  have hh := streamInitFunc_noFail_inv sheet _ _ hr
  subst hh
  refine ⟨?_, ?_, by simp⟩
  · simp [h1, h2, initEvents_flushOKAux]
  · simp [h2, initEvents_activeAux]

/-- A successful streaming-strategy run from a boundary state restores the
boundary invariant and leaves a trace ending in the final `Flush`
(`exporter.go:123`). -/
theorem streamStrategy_BInv (fuel : Nat) (sheet : SheetData) (st st' : Exporter)
    (hrun : exportUsingStreamWriter noFail fuel sheet st = some (.ok st'))
    (h : BInv st) :
    BInv st' ∧ ∃ tr, st'.Trace = tr ++ [Event.flush] := by
  simp only [exportUsingStreamWriter] at hrun
  rcases hh : exportHelper noFail fuel sheet (streamInitFunc noFail sheet) (streamWriteRow noFail) st
    with _ | r
  · rw [hh] at hrun
    simp at hrun
  · rcases r with es | st1
    · rw [hh] at hrun
      simp at hrun
    · rw [hh] at hrun
      simp only [opFlush_noFail] at hrun
      simp at hrun
      have hL : LInv st1 := by
        simp only [exportHelper] at hh
        rcases hi : streamInitFunc noFail sheet { st with CurrentSheet := sheet.Name }
          with es | st2
        · rw [hi] at hh
          simp at hh
        · rw [hi] at hh
          exact exportLoop_LInv sheet fuel 1 0 0 st2 st1 hh (LInv_boundary_init sheet st st2 hi h)
      obtain ⟨h1, h2, h3⟩ := hL
      subst hrun
      refine ⟨⟨?_, ?_⟩, st1.Trace, by simp⟩
      · simp [h1]
      · simp

/-- Both the file name and the strategy selector are invariant along a
successful streaming-strategy run. -/
theorem streamStrategy_config (fuel : Nat) (sheet : SheetData) (st st' : Exporter)
    (hrun : exportUsingStreamWriter noFail fuel sheet st = some (.ok st')) :
    st'.UseStreamWriter = st.UseStreamWriter ∧ st'.FileName = st.FileName :=
  exportUsingStreamWriter_rel
    (fun a b => b.UseStreamWriter = a.UseStreamWriter ∧ b.FileName = a.FileName)
    (fun _ _ _ hab hbc => ⟨hbc.1.trans hab.1, hbc.2.trans hab.2⟩)
    (fun _ => ⟨rfl, rfl⟩)
    noFail fuel sheet
    (fun _ _ => ⟨rfl, rfl⟩)
    (fun st nm st' hr => by
      rw [wrapNewSheet_noFail] at hr
      injection hr with hh
      subst hh
      exact ⟨rfl, rfl⟩)
    (fun _ _ => ⟨rfl, rfl⟩)
    (fun st st' hr => by
      have hh := streamInitFunc_noFail_inv sheet st st' hr
      subst hh
      simp)
    (fun st r row st' hr => by
      rw [streamWriteRow_noFail] at hr
      injection hr with hh
      subst hh
      simp)
    (fun st st' hr => by
      rw [opFlush_noFail] at hr
      injection hr with hh
      subst hh
      exact ⟨rfl, rfl⟩)
    st st' hrun

theorem BInv_newSheet (st : Exporter) (nm : String) (h : BInv st) : BInv (appendSheet st nm) := by
  obtain ⟨h1, h2⟩ := h
  constructor
  · simp [h1, h2]
  · simp [h2]

theorem BInv_delete (st : Exporter) (h : BInv st) :
    BInv { appendEv st (.deleteSheet "Sheet1") with Sheets := st.Sheets.erase "Sheet1" } := by
  obtain ⟨h1, h2⟩ := h
  constructor
  · simp [h1, h2]
  · simp [h2]

/-- Tail step of the boundary induction: one streaming spec, then the rest
of the loop, produces a trace ending in `[flush, saveAs]`. -/
theorem flush_tail (fuel i : Nat) (spec : SheetData) (rest : List SheetData)
    (st2 st3 st' : Exporter) (fn : String)
    (hB2 : BInv st2) (hus2 : st2.UseStreamWriter = true) (hfn2 : st2.FileName = fn)
    (hstrat : exportUsingStreamWriter noFail fuel spec st2 = some (.ok st3))
    (hrest : ExportLoop noFail fuel (i + 1) rest st3 = some (.ok st'))
    (ih : ∀ (fuel i : Nat) (st st' : Exporter), st.UseStreamWriter = true → BInv st →
        ExportLoop noFail fuel i rest st = some (.ok st') →
        flushOKAux false st'.Trace = true
        ∧ (rest = [] → st'.Trace = st.Trace ++ [Event.saveAs st.FileName])
        ∧ (rest ≠ [] → ∃ tr, st'.Trace = tr ++ [Event.flush, Event.saveAs st.FileName])) :
    flushOKAux false st'.Trace = true
    ∧ ∃ tr, st'.Trace = tr ++ [Event.flush, Event.saveAs fn] := by
  obtain ⟨hB3, tr3, htr3⟩ := streamStrategy_BInv fuel spec st2 st3 hstrat hB2
  obtain ⟨hus3, hfn3⟩ := streamStrategy_config fuel spec st2 st3 hstrat
  have hres := ih fuel (i + 1) st3 st' (by rw [hus3, hus2]) hB3 hrest
  refine ⟨hres.1, ?_⟩
  cases rest with
  | nil =>
    have h2 := hres.2.1 rfl
    refine ⟨tr3, ?_⟩
    rw [h2, htr3, hfn3, hfn2]
    simp
  | cons r rs =>
    obtain ⟨tr, htr⟩ := hres.2.2 (by simp)
    rw [hfn3, hfn2] at htr
    exact ⟨tr, htr⟩

/-- Inversion of one successful iteration of the per-spec loop
(`exporter.go:50-71`): the sheet was created, the conditional placeholder
deletion resolved, the selected strategy succeeded, and the loop continued
on the rest. -/
theorem ExportLoop_cons_ok (bo : Oracle) (fuel i : Nat) (spec : SheetData)
    (rest : List SheetData) (st st' : Exporter)
    (hrun : ExportLoop bo fuel i (spec :: rest) st = some (.ok st')) :
    ∃ st1 st2 st3,
      wrapNewSheet bo spec.Name st = .ok st1
      ∧ ((i = 0 ∧ 1 < st1.Sheets.length) →
          st2 = { appendEv st1 (.deleteSheet "Sheet1") with Sheets := st1.Sheets.erase "Sheet1" })
      ∧ (¬ (i = 0 ∧ 1 < st1.Sheets.length) → st2 = st1)
      ∧ (if st2.UseStreamWriter then exportUsingStreamWriter bo fuel spec st2
         else exportUsingMemory bo fuel spec st2) = some (.ok st3)
      ∧ ExportLoop bo fuel (i + 1) rest st3 = some (.ok st') := by
  simp only [ExportLoop] at hrun
  rcases hw : wrapNewSheet bo spec.Name st with es | st1
  · rw [hw] at hrun
    simp at hrun
  · rw [hw] at hrun
    dsimp only at hrun
    by_cases hdel : i = 0 ∧ 1 < st1.Sheets.length
    · rw [if_pos hdel] at hrun
      rcases hd : opDeleteSheet bo "Sheet1" st1 with ⟨e, std⟩ | st2
      · rw [hd] at hrun
        simp at hrun
      · rw [hd] at hrun
        dsimp only at hrun
        rcases hres : (if st2.UseStreamWriter then exportUsingStreamWriter bo fuel spec st2
                       else exportUsingMemory bo fuel spec st2) with _ | r
        · rw [hres] at hrun
          simp at hrun
        · rcases r with es | st3
          · rw [hres] at hrun
            simp at hrun
          · rw [hres] at hrun
            dsimp only at hrun
            refine ⟨st1, st2, st3, rfl, fun _ => ?_, fun hc => absurd hdel hc, hres, hrun⟩
            rcases hbo : bo st1.Calls with _ | e
            · rw [opDeleteSheet, hbo] at hd
              exact (Except.ok.inj hd).symm
            · rw [opDeleteSheet, hbo] at hd
              exact Except.noConfusion hd
    · rw [if_neg hdel] at hrun
      dsimp only at hrun
      rcases hres : (if st1.UseStreamWriter then exportUsingStreamWriter bo fuel spec st1
                     else exportUsingMemory bo fuel spec st1) with _ | r
      · rw [hres] at hrun
        simp at hrun
      · rcases r with es | st3
        · rw [hres] at hrun
          simp at hrun
        · rw [hres] at hrun
          dsimp only at hrun
          exact ⟨st1, st1, st3, rfl, fun hc => absurd hc hdel, fun _ => rfl, hres, hrun⟩

/-- Boundary induction over the spec list: a successful streaming export
loop from a boundary state respects the flush discipline throughout and,
when at least one spec was processed, ends with the final flush followed by
the save. -/
theorem ExportLoop_flush_aux :
    ∀ (specs : List SheetData) (fuel i : Nat) (st st' : Exporter),
      st.UseStreamWriter = true → BInv st →
      ExportLoop noFail fuel i specs st = some (.ok st') →
      flushOKAux false st'.Trace = true
      ∧ (specs = [] → st'.Trace = st.Trace ++ [Event.saveAs st.FileName])
      ∧ (specs ≠ [] → ∃ tr, st'.Trace = tr ++ [Event.flush, Event.saveAs st.FileName]) := by
  intro specs
  induction specs with
  | nil =>
    intro fuel i st st' hus hB hrun
    simp only [ExportLoop, opSaveAs_noFail] at hrun
    simp at hrun
    subst hrun
    obtain ⟨h1, h2⟩ := hB
    refine ⟨?_, fun _ => by simp, fun hne => absurd rfl hne⟩
    simp [h1, h2]
  | cons spec rest ih =>
    intro fuel i st st' hus hB hrun
    obtain ⟨st1, st2, st3, hw, hdelPos, hdelNeg, hstrat, hrest⟩ :=
      ExportLoop_cons_ok noFail fuel i spec rest st st' hrun
    rw [wrapNewSheet_noFail] at hw
    injection hw with hw1
    have hB1 : BInv st1 := by
      rw [← hw1]
      exact BInv_newSheet st spec.Name hB
    have hus1 : st1.UseStreamWriter = true := by
      rw [← hw1]
      simp [hus]
    have hfn1 : st1.FileName = st.FileName := by
      rw [← hw1]
      simp
    have hst2 : BInv st2 ∧ st2.UseStreamWriter = true ∧ st2.FileName = st.FileName := by
      by_cases hdel : i = 0 ∧ 1 < st1.Sheets.length
      · rw [hdelPos hdel]
        exact ⟨BInv_delete st1 hB1, by simp [hus1], by simp [hfn1]⟩
      · rw [hdelNeg hdel]
        exact ⟨hB1, hus1, hfn1⟩
    obtain ⟨hB2, hus2, hfn2⟩ := hst2
    rw [hus2, if_pos rfl] at hstrat
    have hmain := flush_tail fuel i spec rest st2 st3 st' st.FileName hB2 hus2 hfn2 hstrat hrest ih
    exact ⟨hmain.1, fun heq => List.noConfusion heq, fun _ => hmain.2⟩

/-- C4: in the streaming strategy, the flush discipline holds along the
whole successful run — the stream handle is (re)bound to a new physical
sheet only when no previously opened stream is pending an unflushed write
(the previously active stream was flushed strictly before the rebinding,
at first sheets of subsequent specs and at split boundaries alike), stream
writes land only on an open unflushed stream, and the workbook is saved
only after all streams were flushed — and, when at least one spec was
exported, the trace ends with the final flush immediately followed by the
save. -/
theorem C4_flush_discipline (fn : String) (specs : List SheetData) (fuel : Nat) (st' : Exporter)
    (hrun : Export noFail fuel (New fn true) specs = some (.ok st')) :
    flushOK st'.Trace = true
    ∧ (specs ≠ [] → ∃ tr, st'.Trace = tr ++ [Event.flush, Event.saveAs fn]) := by
  have h := ExportLoop_flush_aux specs fuel 0 (New fn true) st' rfl ⟨rfl, rfl⟩ hrun
  exact ⟨h.1, fun hne => h.2.2 hne⟩

/-- Witness for C4 at a concrete run: exporting one sheet named "A" with no
rows through the streaming strategy yields a discipline-respecting trace
ending in the final flush and the save. -/
theorem C4_flush_discipline_witness :
    flushOK (Exporter.mk ["A"]
        [Event.newSheet "A", Event.deleteSheet "Sheet1", Event.openStream "A",
         Event.pulled 0, Event.flush, Event.saveAs "f"]
        5 "f" "A" true (some "A")).Trace = true
    ∧ ∃ tr, (Exporter.mk ["A"]
        [Event.newSheet "A", Event.deleteSheet "Sheet1", Event.openStream "A",
         Event.pulled 0, Event.flush, Event.saveAs "f"]
        5 "f" "A" true (some "A")).Trace = tr ++ [Event.flush, Event.saveAs "f"] :=
  ⟨(C4_flush_discipline "f" [⟨"A", listSrc [], none⟩] 1
      ⟨["A"], [Event.newSheet "A", Event.deleteSheet "Sheet1", Event.openStream "A",
               Event.pulled 0, Event.flush, Event.saveAs "f"], 5, "f", "A", true, some "A"⟩
      rfl).1,
   (C4_flush_discipline "f" [⟨"A", listSrc [], none⟩] 1
      ⟨["A"], [Event.newSheet "A", Event.deleteSheet "Sheet1", Event.openStream "A",
               Event.pulled 0, Event.flush, Event.saveAs "f"], 5, "f", "A", true, some "A"⟩
      rfl).2 (by simp)⟩

/-! ## C9: error propagation -/

@[simp] theorem newsOf_append (a b : List Event) :
    newsOf (a ++ b) = newsOf a ++ newsOf b := by
  induction a with
  | nil => simp [newsOf]
  | cons ev rest ih => cases ev <;> simp [newsOf, ih]

@[simp] theorem savesOf_append (a b : List Event) :
    savesOf (a ++ b) = savesOf a ++ savesOf b := by
  induction a with
  | nil => simp [savesOf]
  | cons ev rest ih => cases ev <;> simp [savesOf, ih]

@[simp] theorem newsOf_initEvents (b hk : Bool) (c : String) :
    newsOf (initEvents b hk c) = [] := by
  cases b <;> cases hk <;> simp [initEvents, newsOf]

@[simp] theorem savesOf_initEvents (b hk : Bool) (c : String) :
    savesOf (initEvents b hk c) = [] := by
  cases b <;> cases hk <;> simp [initEvents, savesOf]

@[simp] theorem newsOf_mergeMap (sh : String) (ms : List MergeCell) :
    newsOf (ms.map fun m => Event.streamMerge sh m.TopLeftCell m.BottomRightCell) = [] := by
  induction ms with
  | nil => simp [newsOf]
  | cons m rest ih => simp [newsOf, ih]

@[simp] theorem savesOf_mergeMap (sh : String) (ms : List MergeCell) :
    savesOf (ms.map fun m => Event.streamMerge sh m.TopLeftCell m.BottomRightCell) = [] := by
  induction ms with
  | nil => simp [savesOf]
  | cons m rest ih => simp [savesOf, ih]

@[simp] theorem newsOf_rowEvents (sh : String) (rowID : Nat) (row : Row) :
    newsOf (rowEvents sh rowID row) = [] := by
  simp [rowEvents, newsOf]

@[simp] theorem savesOf_rowEvents (sh : String) (rowID : Nat) (row : Row) :
    savesOf (rowEvents sh rowID row) = [] := by
  simp [rowEvents, savesOf]

@[simp] theorem newsOf_flat (sh : String) :
    ∀ (rs : List Row) (rowID k : Nat), newsOf (flatRowEvents sh rowID k rs) = [] := by
  intro rs
  induction rs with
  | nil => intro rowID k; simp [flatRowEvents, newsOf]
  | cons row rest ih => intro rowID k; simp [flatRowEvents, newsOf, ih]

@[simp] theorem savesOf_flat (sh : String) :
    ∀ (rs : List Row) (rowID k : Nat), savesOf (flatRowEvents sh rowID k rs) = [] := by
  intro rs
  induction rs with
  | nil => intro rowID k; simp [flatRowEvents, savesOf]
  | cons row rest ih => intro rowID k; simp [flatRowEvents, savesOf, ih]

/-- A streaming `exportHelper` run over an `errSrc` source aborts exactly at
the failing pull: the rows are written, the failing pull is recorded, and
the recorded pull error is returned unmodified. -/
theorem exportHelper_stream_errSrc (name : String)
    (hook? : Option (String → Except Err Unit)) (rows : List Row) (e : Err) (st : Exporter)
    (hok : hookOk hook?) (hcells : ∀ r ∈ rows, r.Cells.isSome = true) :
    exportHelper noFail (rows.length + 1) ⟨name, errSrc rows e, hook?⟩
        (streamInitFunc noFail ⟨name, errSrc rows e, hook?⟩) (streamWriteRow noFail) st
      = some (.error (e, notify (pureRun name hook?.isSome rows
          ⟨1, 0, 0, pureStreamInit hook?.isSome { st with CurrentSheet := name }⟩).ex
          (.pulled rows.length))) := by
  have hinit : ∀ st0 : Exporter,
      streamInitFunc noFail ⟨name, errSrc rows e, hook?⟩ st0
        = .ok (pureStreamInit hook?.isSome st0) :=
    fun st0 => streamInitFunc_noFail_hookOk ⟨name, errSrc rows e, hook?⟩ st0 hok
  have hsrc : ∀ j, (hj : j < rows.length) → errSrc rows e (0 + j) = .ok rows[j] := by
    intro j hj
    simp [errSrc, List.getElem?_eq_getElem hj]
  simp only [exportHelper, hinit]
  rw [exportLoop_stream_advance name hook? (errSrc rows e) hok rows 1 0 1 0 _ hsrc hcells]
  rw [pureRun_rowIndex]
  have hend : errSrc rows e rows.length = .error e := by
    simp [errSrc, List.getElem?_eq_none (Nat.le_refl rows.length)]
  simp only [exportLoop, Nat.zero_add, hend]

/-- The streaming strategy on an `errSrc` source from a stream-free state:
the error aborts the strategy (the final flush never runs), with the
expected trace. -/
theorem export_tail_pullErr (name fn : String) (hook? : Option (String → Except Err Unit))
    (rows : List Row) (e : Err) (st2 : Exporter)
    (hok : hookOk hook?) (hcells : ∀ r ∈ rows, r.Cells.isSome = true)
    (hlen : rows.length ≤ SheetMaxRows)
    (hsw : st2.StreamWriter = none) :
    ∃ stE, exportUsingStreamWriter noFail (rows.length + 1)
              ⟨name, errSrc rows e, hook?⟩ st2
        = some (.error (e, stE))
      ∧ stE.Sheets = st2.Sheets
      ∧ stE.Trace = st2.Trace ++ initEvents false hook?.isSome name
          ++ flatRowEvents name 1 0 rows ++ [Event.pulled rows.length] := by
  have hchar := exportHelper_stream_errSrc name hook? rows e st2 hok hcells
  have hns := pureRun_noSplit name hook?.isSome rows
    ⟨1, 0, 0, pureStreamInit hook?.isSome { st2 with CurrentSheet := name }⟩
    (by simp <;> omega)
  simp only [LoopSt_mk_rowID, LoopSt_mk_suffix, LoopSt_mk_rowIndex, LoopSt_mk_ex] at hns
  obtain ⟨_, _, l1S, _, _, _, _, l1T⟩ := hns
  simp only [exportUsingStreamWriter, hchar]
  refine ⟨_, rfl, ?_, ?_⟩
  · simp only [notify_Sheets, l1S]
    simp
  · simp only [notify_Trace, l1T]
    simp [hsw, List.append_assoc]

/-- Propagation of a first-spec strategy error to `Export`: when the first
two backend calls (`NewSheet "A"`, `DeleteSheet "Sheet1"`) succeed, the run
reaches the canonical post-deletion state and the selected strategy's error
is the export's result — later specs are never processed. -/
theorem Export_strat_err (bo : Oracle) (fuel : Nat) (fn : String) (us : Bool)
    (src : Nat → Except Err Row) (hook? : Option (String → Except Err Unit))
    (rest : List SheetData) (es : Err × Exporter)
    (hb0 : bo 0 = none) (hb1 : bo 1 = none)
    (hstrat : (if us then
          exportUsingStreamWriter bo fuel ⟨"A", src, hook?⟩
            ⟨["A"], [Event.newSheet "A", Event.deleteSheet "Sheet1"], 2, fn, "", us, none⟩
        else
          exportUsingMemory bo fuel ⟨"A", src, hook?⟩
            ⟨["A"], [Event.newSheet "A", Event.deleteSheet "Sheet1"], 2, fn, "", us, none⟩)
        = some (.error es)) :
    Export bo fuel (New fn us) (⟨"A", src, hook?⟩ :: rest) = some (.error es) := by
  have hw : wrapNewSheet bo "A" (New fn us) = .ok (appendSheet (New fn us) "A") := by
    simp [wrapNewSheet, opNewSheet, hb0]
  have hdel : opDeleteSheet bo "Sheet1" (appendSheet (New fn us) "A")
      = .ok ⟨["A"], [Event.newSheet "A", Event.deleteSheet "Sheet1"], 2, fn, "", us, none⟩ := by
    have hb1' : bo (appendSheet (New fn us) "A").Calls = none := hb1
    simp only [opDeleteSheet]
    rw [hb1']
    rfl
  have hsh : (appendSheet (New fn us) "A").Sheets = ["Sheet1", "A"] := rfl
  simp only [Export, ExportLoop]
  rw [hw]
  dsimp only
  rw [if_pos ⟨trivial, by rw [hsh]; decide⟩]
  rw [hdel]
  dsimp only
  rw [hstrat]

/-- `memWriteRow` when the style write of the first cell fails: the value
write succeeded and the error aborts the row with nothing further written. -/
theorem memWriteRow_style_err (bo : Oracle) (st : Exporter) (rid : Nat)
    (v : CellValue) (sid : Int) (fm : String) (cs : List Cell) (ms : List MergeCell)
    (opts : List RowOpt) (e : Err)
    (h0 : bo st.Calls = none) (hs : 0 < sid) (h1 : bo (st.Calls + 1) = some e) :
    memWriteRow bo st rid ⟨some (⟨v, sid, fm⟩ :: cs), ms, opts⟩
      = .error (e, appendEv st (.setCellValue st.CurrentSheet 1 rid v)) := by
  simp [memWriteRow, memWriteCells, opSetCellValue, opSetCellStyle, h0, h1, hs]

/-- `memWriteRow` when the formula write of the first cell fails (no style
applied): the value write succeeded and the error aborts the row. -/
theorem memWriteRow_formula_err (bo : Oracle) (st : Exporter) (rid : Nat)
    (v : CellValue) (sid : Int) (fm : String) (cs : List Cell) (ms : List MergeCell)
    (opts : List RowOpt) (e : Err)
    (h0 : bo st.Calls = none) (hsn : ¬ 0 < sid) (hf : fm ≠ "")
    (h1 : bo (st.Calls + 1) = some e) :
    memWriteRow bo st rid ⟨some (⟨v, sid, fm⟩ :: cs), ms, opts⟩
      = .error (e, appendEv st (.setCellValue st.CurrentSheet 1 rid v)) := by
  simp [memWriteRow, memWriteCells, opSetCellValue, opSetCellFormula, h0, h1, hsn, hf]

/-- The memory strategy on a one-row source from the canonical post-deletion
state, reduced to its first row write: an error there is the strategy's
result. -/
theorem exportUsingMemory_row1_err (bo : Oracle) (fl : Nat) (fn : String)
    (cs : List Cell) (ms : List MergeCell) (opts : List RowOpt) (es : Err × Exporter)
    (hw : memWriteRow bo
        ⟨["A"], [Event.newSheet "A", Event.deleteSheet "Sheet1", Event.pulled 0], 2, fn, "A",
          false, none⟩ 1 ⟨some cs, ms, opts⟩ = .error es) :
    exportUsingMemory bo (fl + 1) ⟨"A", listSrc [⟨some cs, ms, opts⟩], none⟩
        ⟨["A"], [Event.newSheet "A", Event.deleteSheet "Sheet1"], 2, fn, "", false, none⟩
      = some (.error es) := by
  have hred : exportUsingMemory bo (fl + 1) ⟨"A", listSrc [⟨some cs, ms, opts⟩], none⟩
        ⟨["A"], [Event.newSheet "A", Event.deleteSheet "Sheet1"], 2, fn, "", false, none⟩
      = match memWriteRow bo
          ⟨["A"], [Event.newSheet "A", Event.deleteSheet "Sheet1", Event.pulled 0], 2, fn, "A",
            false, none⟩ 1 ⟨some cs, ms, opts⟩ with
        | .error es2 => some (.error es2)
        | .ok st2 => exportLoop ⟨"A", listSrc [⟨some cs, ms, opts⟩], none⟩
            (memInitFunc ⟨"A", listSrc [⟨some cs, ms, opts⟩], none⟩) (memWriteRow bo) bo fl
            2 0 1 st2 := rfl
  rw [hred, hw]

/-- C9: an error at any stage aborts the whole export immediately, with no
partial-success mode and no retry, and is returned to the caller — wrapped
with stage context exactly for the two sheet-management calls.  One
conjunct per stage, each a quantified family over the error value, file
name, failing operation's data, the pending rest of the spec list and (where
the loop is entered) the remaining fuel: (1) a pull error, for arbitrary
preceding rows, hook and pending specs, is returned unmodified, the failing
pull is the last one, no further sheet is created and nothing saved; (2) a
`NewSheet` error, for an arbitrary spec list, is wrapped with "failed to
create a new sheet" before anything else happens; (3) a `DeleteSheet`
error, for any first-spec name other than "Sheet1", is wrapped with
"failed to delete default sheet"; (4) a streaming init-hook error aborts
unwrapped right after the stream was opened; (5) a memory init-hook error
aborts unwrapped before any pull; (6) a cell-value write error aborts the
memory strategy unwrapped, for any cell; (7) a style write error (any cell
with positive `StyleID`) aborts after only the value write; (8) a formula
write error (any cell with non-positive `StyleID` and non-empty formula)
aborts after only the value write; (9) a memory `MergeCell` error aborts
unwrapped, for any merge range; (10) a stream `SetRow` error aborts
unwrapped, for any row; (11) a stream `MergeCell` error aborts after only
the row's `SetRow`; (12) a final-flush error aborts before any save; (13) a
`SaveAs` error is returned unwrapped. -/
theorem C9_error_abort :
    (∀ (rows : List Row) (e : Err) (hook? : Option (String → Except Err Unit))
        (restSpecs : List SheetData) (fn : String),
      hookOk hook? → (∀ r ∈ rows, r.Cells.isSome = true) → rows.length ≤ SheetMaxRows →
      ∃ stE, Export noFail (rows.length + 1) (New fn true)
            (⟨"A", errSrc rows e, hook?⟩ :: restSpecs)
          = some (.error (e, stE))
        ∧ pullsOf stE.Trace = List.range (rows.length + 1)
        ∧ newsOf stE.Trace = ["A"]
        ∧ savesOf stE.Trace = []
        ∧ stE.Sheets = ["A"])
    ∧ (∀ (fn : String) (us : Bool) (fuel : Nat) (e : Err) (spec : SheetData)
        (rest : List SheetData),
      Export (failAt 0 e) fuel (New fn us) (spec :: rest)
        = some (.error (Err.wrap "failed to create a new sheet" e, New fn us)))
    ∧ (∀ (fn : String) (us : Bool) (fuel : Nat) (e : Err) (nm : String)
        (src : Nat → Except Err Row) (hook? : Option (String → Except Err Unit))
        (rest : List SheetData), nm ≠ "Sheet1" →
      Export (failAt 1 e) fuel (New fn us) (⟨nm, src, hook?⟩ :: rest)
        = some (.error (Err.wrap "failed to delete default sheet" e,
            appendSheet (New fn us) nm)))
    ∧ (∀ (fn : String) (e : Err) (f : String → Except Err Unit)
        (src : Nat → Except Err Row) (fuel : Nat) (rest : List SheetData),
      f "A" = .error e →
      Export noFail fuel (New fn true) (⟨"A", src, some f⟩ :: rest)
        = some (.error (e, ⟨["A"],
            [Event.newSheet "A", Event.deleteSheet "Sheet1", Event.openStream "A"],
            3, fn, "A", true, some "A"⟩)))
    ∧ (∀ (fn : String) (e : Err) (f : String → Except Err Unit)
        (src : Nat → Except Err Row) (fuel : Nat) (rest : List SheetData),
      f "A" = .error e →
      Export noFail fuel (New fn false) (⟨"A", src, some f⟩ :: rest)
        = some (.error (e, ⟨["A"],
            [Event.newSheet "A", Event.deleteSheet "Sheet1"], 2, fn, "A", false, none⟩)))
    ∧ (∀ (fn : String) (e : Err) (c : Cell) (cs : List Cell) (ms : List MergeCell)
        (opts : List RowOpt) (rest : List SheetData) (fl : Nat),
      Export (failAt 2 e) (fl + 1) (New fn false)
          (⟨"A", listSrc [⟨some (c :: cs), ms, opts⟩], none⟩ :: rest)
        = some (.error (e, ⟨["A"],
            [Event.newSheet "A", Event.deleteSheet "Sheet1", Event.pulled 0],
            2, fn, "A", false, none⟩)))
    ∧ (∀ (fn : String) (e : Err) (v : CellValue) (sid : Int) (fm : String)
        (cs : List Cell) (ms : List MergeCell) (opts : List RowOpt)
        (rest : List SheetData) (fl : Nat), 0 < sid →
      Export (failAt 3 e) (fl + 1) (New fn false)
          (⟨"A", listSrc [⟨some (⟨v, sid, fm⟩ :: cs), ms, opts⟩], none⟩ :: rest)
        = some (.error (e, ⟨["A"],
            [Event.newSheet "A", Event.deleteSheet "Sheet1", Event.pulled 0,
             Event.setCellValue "A" 1 1 v],
            3, fn, "A", false, none⟩)))
    ∧ (∀ (fn : String) (e : Err) (v : CellValue) (sid : Int) (fm : String)
        (cs : List Cell) (ms : List MergeCell) (opts : List RowOpt)
        (rest : List SheetData) (fl : Nat), ¬ 0 < sid → fm ≠ "" →
      Export (failAt 3 e) (fl + 1) (New fn false)
          (⟨"A", listSrc [⟨some (⟨v, sid, fm⟩ :: cs), ms, opts⟩], none⟩ :: rest)
        = some (.error (e, ⟨["A"],
            [Event.newSheet "A", Event.deleteSheet "Sheet1", Event.pulled 0,
             Event.setCellValue "A" 1 1 v],
            3, fn, "A", false, none⟩)))
    ∧ (∀ (fn : String) (e : Err) (m : MergeCell) (ms : List MergeCell)
        (opts : List RowOpt) (rest : List SheetData) (fl : Nat),
      Export (failAt 2 e) (fl + 1) (New fn false)
          (⟨"A", listSrc [⟨some [], m :: ms, opts⟩], none⟩ :: rest)
        = some (.error (e, ⟨["A"],
            [Event.newSheet "A", Event.deleteSheet "Sheet1", Event.pulled 0],
            2, fn, "A", false, none⟩)))
    ∧ (∀ (fn : String) (e : Err) (cs : List Cell) (ms : List MergeCell)
        (opts : List RowOpt) (rest : List SheetData) (fl : Nat),
      Export (failAt 3 e) (fl + 1) (New fn true)
          (⟨"A", listSrc [⟨some cs, ms, opts⟩], none⟩ :: rest)
        = some (.error (e, ⟨["A"],
            [Event.newSheet "A", Event.deleteSheet "Sheet1", Event.openStream "A",
             Event.pulled 0],
            3, fn, "A", true, some "A"⟩)))
    ∧ (∀ (fn : String) (e : Err) (cs : List Cell) (m : MergeCell) (ms : List MergeCell)
        (opts : List RowOpt) (rest : List SheetData) (fl : Nat),
      Export (failAt 4 e) (fl + 1) (New fn true)
          (⟨"A", listSrc [⟨some cs, m :: ms, opts⟩], none⟩ :: rest)
        = some (.error (e, ⟨["A"],
            [Event.newSheet "A", Event.deleteSheet "Sheet1", Event.openStream "A",
             Event.pulled 0, Event.streamSetRow "A" 1 1 cs opts],
            4, fn, "A", true, some "A"⟩)))
    ∧ (∀ (fn : String) (e : Err) (rest : List SheetData) (fl : Nat),
      Export (failAt 3 e) (fl + 1) (New fn true) (⟨"A", listSrc [], none⟩ :: rest)
        = some (.error (e, ⟨["A"],
            [Event.newSheet "A", Event.deleteSheet "Sheet1", Event.openStream "A",
             Event.pulled 0],
            3, fn, "A", true, some "A"⟩)))
    ∧ (∀ (fn : String) (us : Bool) (fuel : Nat) (e : Err),
      Export (failAt 0 e) fuel (New fn us) []
        = some (.error (e, New fn us))) := by
  refine ⟨?_, fun fn us fuel e spec rest => rfl, ?_, ?_, ?_,
    fun fn e c cs ms opts rest fl => rfl, ?_, ?_,
    fun fn e m ms opts rest fl => rfl,
    fun fn e cs ms opts rest fl => rfl,
    fun fn e cs m ms opts rest fl => rfl,
    fun fn e rest fl => rfl,
    fun fn us fuel e => rfl⟩
  · -- (1) pull error
    intro rows e hook? restSpecs fn hok hcells hcap
    obtain ⟨stE, htail, hS, hT⟩ := export_tail_pullErr "A" fn hook? rows e
        ⟨["A"], [Event.newSheet "A", Event.deleteSheet "Sheet1"], 2, fn, "", true, none⟩
        hok hcells hcap rfl
    refine ⟨stE, ?_, ?_, ?_, ?_, hS⟩
    · refine Export_strat_err noFail (rows.length + 1) fn true (errSrc rows e) hook? restSpecs _
        rfl rfl ?_
      rw [if_pos rfl]
      exact htail
    · rw [hT]
      simp [pullsOf, pullsOf_flat, List.range_eq_range', apply_ite pullsOf]
      rw [List.range'_concat 0 rows.length]
      simp
    · rw [hT]
      simp [newsOf, apply_ite newsOf]
    · rw [hT]
      simp [savesOf, apply_ite savesOf]
  · -- (3) DeleteSheet error, wrapped
    intro fn us fuel e nm src hook? rest hnm
    have hnm2 : ¬ ("Sheet1" : String) = nm := fun h => hnm h.symm
    have hw : wrapNewSheet (failAt 1 e) nm (New fn us) = .ok (appendSheet (New fn us) nm) := by
      simp [wrapNewSheet, opNewSheet, failAt]
    have hsh : (appendSheet (New fn us) nm).Sheets = ["Sheet1", nm] := by
      simp [appendSheet_Sheets, hnm2, hnm]
    have hdel : opDeleteSheet (failAt 1 e) "Sheet1" (appendSheet (New fn us) nm)
        = .error (e, appendSheet (New fn us) nm) := by
      simp [opDeleteSheet, failAt]
    simp only [Export, ExportLoop]
    rw [hw]
    dsimp only
    rw [if_pos ⟨trivial, by rw [hsh]; simp⟩]
    rw [hdel]
  · -- (4) streaming init-hook error
    intro fn e f src fuel rest hf
    refine Export_strat_err noFail fuel fn true src (some f) rest _ rfl rfl ?_
    rw [if_pos rfl]
    have hinit : streamInitFunc noFail ⟨"A", src, some f⟩
        ⟨["A"], [Event.newSheet "A", Event.deleteSheet "Sheet1"], 2, fn, "A", true, none⟩
        = .error (e, ⟨["A"],
            [Event.newSheet "A", Event.deleteSheet "Sheet1", Event.openStream "A"],
            3, fn, "A", true, some "A"⟩) := by
      simp [streamInitFunc, hf, appendEv]
    simp only [exportUsingStreamWriter, exportHelper]
    rw [hinit]
  · -- (5) memory init-hook error
    intro fn e f src fuel rest hf
    refine Export_strat_err noFail fuel fn false src (some f) rest _ rfl rfl ?_
    rw [if_neg (by simp)]
    have hinit : memInitFunc ⟨"A", src, some f⟩
        ⟨["A"], [Event.newSheet "A", Event.deleteSheet "Sheet1"], 2, fn, "A", false, none⟩
        = .error (e, ⟨["A"],
            [Event.newSheet "A", Event.deleteSheet "Sheet1"], 2, fn, "A", false, none⟩) := by
      simp [memInitFunc, hf]
    simp only [exportUsingMemory, exportHelper]
    rw [hinit]
  · -- (7) style error
    intro fn e v sid fm cs ms opts rest fl hs
    refine Export_strat_err (failAt 3 e) (fl + 1) fn false
        (listSrc [⟨some (⟨v, sid, fm⟩ :: cs), ms, opts⟩]) none rest _ rfl rfl ?_
    rw [if_neg (by simp)]
    exact exportUsingMemory_row1_err (failAt 3 e) fl fn (⟨v, sid, fm⟩ :: cs) ms opts _
      (memWriteRow_style_err (failAt 3 e)
        ⟨["A"], [Event.newSheet "A", Event.deleteSheet "Sheet1", Event.pulled 0], 2, fn, "A",
          false, none⟩ 1 v sid fm cs ms opts e rfl hs rfl)
  · -- (8) formula error
    intro fn e v sid fm cs ms opts rest fl hsn hfm
    refine Export_strat_err (failAt 3 e) (fl + 1) fn false
        (listSrc [⟨some (⟨v, sid, fm⟩ :: cs), ms, opts⟩]) none rest _ rfl rfl ?_
    rw [if_neg (by simp)]
    exact exportUsingMemory_row1_err (failAt 3 e) fl fn (⟨v, sid, fm⟩ :: cs) ms opts _
      (memWriteRow_formula_err (failAt 3 e)
        ⟨["A"], [Event.newSheet "A", Event.deleteSheet "Sheet1", Event.pulled 0], 2, fn, "A",
          false, none⟩ 1 v sid fm cs ms opts e rfl hsn hfm rfl)

/-- Witness for C9's pull-error part at a concrete run: one zero-width row
then a pull error aborts the export with the error unmodified, pulls
`[0, 1]`, only sheet "A" created, nothing saved, the second spec untouched. -/
theorem C9_error_abort_witness :
    hookOk (none : Option (String → Except Err Unit))
    ∧ (∀ r ∈ ([{ Cells := some [] }] : List Row), r.Cells.isSome = true)
    ∧ ([{ Cells := some [] }] : List Row).length ≤ SheetMaxRows
    ∧ ∃ stE, Export noFail (([{ Cells := some [] }] : List Row).length + 1) (New "f" true)
          [⟨"A", errSrc [{ Cells := some [] }] (Err.tag 7), none⟩, ⟨"B", listSrc [], none⟩]
        = some (.error (Err.tag 7, stE))
      ∧ pullsOf stE.Trace = List.range (([{ Cells := some [] }] : List Row).length + 1)
      ∧ newsOf stE.Trace = ["A"]
      ∧ savesOf stE.Trace = []
      ∧ stE.Sheets = ["A"] :=
  ⟨fun h s hh => Option.noConfusion hh, by decide, by decide,
   C9_error_abort.1 [{ Cells := some [] }] (Err.tag 7) none [⟨"B", listSrc [], none⟩] "f"
     (fun h s hh => Option.noConfusion hh) (by decide) (by decide)⟩

end ExcelExporter
